import Mathlib

/-!
# Machine Check features (UefiCpuPkg/Library/CpuCommonFeaturesLib/MachineCheck.c)

A shallow embedding of the four machine-check features of `MachineCheck.c`
(MCE, MCA, MCG_CTL, LMCE): each feature is a support predicate and an
initializer that appends entries to the CPU register table.

The C file includes `CpuCommonFeatures.h`, which is not part of the sources
at hand.  Everything that header supplies (MSR numbers, bit-field layouts of
the register unions, whether a failed `ASSERT` stops the call) is a field of
the parameter `ArchDefs`; the register table macros are modelled from the
specification.
-/

namespace MachineCheck

/-! ## Data model -/

/-- A bit-field member of a register union: `width` bits starting at bit `lsb`.
The members are declared on 32-bit storage units, hence `width ≤ 32`. -/
structure BitField where
  lsb : Nat
  width : Nat
  width_le : width ≤ 32

/-- Value of a bit-field member inside the raw register value `raw`. -/
def BitField.get (f : BitField) (raw : Nat) : Nat :=
  (raw / 2 ^ f.lsb) % 2 ^ f.width

/-- The declarations `MachineCheck.c` takes from its header: MSR numbers, the
bit-field members it reads and the effect of a failed `ASSERT`.  All of them
are parameters of the model. -/
structure ArchDefs where
  MSR_IA32_MCG_CAP : Nat
  MSR_IA32_MC0_CTL : Nat
  MSR_IA32_MC0_STATUS : Nat
  MSR_IA32_MCG_CTL : Nat
  MSR_IA32_FEATURE_CONTROL : Nat
  /-- `CPUID_VERSION_INFO_EDX.Bits.MCE` -/
  EDX_MCE : BitField
  /-- `CPUID_VERSION_INFO_EDX.Bits.MCA` -/
  EDX_MCA : BitField
  /-- `MSR_IA32_MCG_CAP_REGISTER.Bits.Count` -/
  MCG_CAP_Count : BitField
  /-- `MSR_IA32_MCG_CAP_REGISTER.Bits.MCG_CTL_P` -/
  MCG_CAP_MCG_CTL_P : BitField
  /-- `MSR_IA32_MCG_CAP_REGISTER.Bits.MCG_LMCE_P` -/
  MCG_CAP_MCG_LMCE_P : BitField
  /-- `MSR_IA32_FEATURE_CONTROL_REGISTER.Bits.Lock` -/
  FEATURE_CONTROL_Lock : BitField
  /-- `MSR_IA32_FEATURE_CONTROL_REGISTER.Bits.LmceOn` -/
  FEATURE_CONTROL_LmceOn : BitField
  /-- `IA32_CR4.Bits.MCE` -/
  CR4_MCE : BitField
  /-- Whether `ASSERT (FALSE)` stops the call (assertions enabled) or does
  nothing (assertions compiled out). -/
  AssertStopsCall : Bool

/-- The values the IA-32 architecture assigns to the header declarations
(Intel SDM vol. 4, CPUID leaf 1, CR4), with assertions enabled.  Used as a
concrete instance only. -/
def ia32 : ArchDefs where
  MSR_IA32_MCG_CAP := 0x179
  MSR_IA32_MC0_CTL := 0x400
  MSR_IA32_MC0_STATUS := 0x401
  MSR_IA32_MCG_CTL := 0x17B
  MSR_IA32_FEATURE_CONTROL := 0x3A
  EDX_MCE := ⟨7, 1, by decide⟩
  EDX_MCA := ⟨14, 1, by decide⟩
  MCG_CAP_Count := ⟨0, 8, by decide⟩
  MCG_CAP_MCG_CTL_P := ⟨8, 1, by decide⟩
  MCG_CAP_MCG_LMCE_P := ⟨27, 1, by decide⟩
  FEATURE_CONTROL_Lock := ⟨0, 1, by decide⟩
  FEATURE_CONTROL_LmceOn := ⟨20, 1, by decide⟩
  CR4_MCE := ⟨6, 1, by decide⟩
  AssertStopsCall := true

/-- The instance `ia32` with assertions compiled out.  Used as a concrete
instance only. -/
def ia32NoAssert : ArchDefs := { ia32 with AssertStopsCall := false }

/-- What the code reads from its surroundings: the MSR read primitive
`AsmReadMsr64` and the platform flag `PcdGetBool (PcdIsPowerOnReset)`. -/
structure Env where
  AsmReadMsr64 : Nat → Nat
  PcdIsPowerOnReset : Bool

/-- The part of `REGISTER_CPU_FEATURE_INFORMATION` the file reads: the raw
EDX word of CPUID leaf 1 (`CpuInfo->CpuIdVersionInfoEdx`). -/
structure REGISTER_CPU_FEATURE_INFORMATION where
  CpuIdVersionInfoEdx : Nat

/-- `VOID *ConfigData OPTIONAL`: either NULL or a pointer to an array of raw
`MSR_IA32_FEATURE_CONTROL_REGISTER` values indexed by processor number. -/
abbrev ConfigDataPtr := Option (Nat → Nat)

/-- Register class of a register table entry. -/
inductive REGISTER_TYPE
  | Msr
  | ControlRegister
  deriving DecidableEq

/-- Register union named in a bit-field write. -/
inductive RegisterUnion
  | IA32_CR4
  | MSR_IA32_FEATURE_CONTROL_REGISTER
  deriving DecidableEq

/-- Member of `Bits` named in a bit-field write. -/
inductive BitsMember
  | MCE
  | LmceOn
  deriving DecidableEq

/-- Payload of a staged modification: the whole 64-bit register, or one
bit-field of it selected by union type and member. -/
inductive WriteKind
  | whole (Value : Nat)
  | field (Ty : RegisterUnion) (Field : BitsMember) (Value : Nat)
  deriving DecidableEq

/-- One staged register modification, tagged with its processor. -/
structure RegisterModification where
  ProcessorNumber : Nat
  RegisterType : REGISTER_TYPE
  Index : Nat
  write : WriteKind
  deriving DecidableEq

/-- The register table: an append-only log of staged modifications. -/
abbrev RegisterTable := List RegisterModification

/-- Status returned by the initializers. -/
inductive RETURN_STATUS
  | RETURN_SUCCESS
  | RETURN_ERROR (code : Nat)
  deriving DecidableEq

/-- Abnormal termination of a call: a failed assertion that stops the call
(the contract violation of the specification), or a read through a NULL
pointer, for which C defines no behaviour. -/
inductive Fault
  | ContractViolation
  | NullDereference
  deriving DecidableEq

/-- Diagnostic emitted through `DEBUG`. -/
inductive DebugMessage
  | LmceEnable (value : Bool)
  deriving DecidableEq

/-- The largest 64-bit value, all bits set. -/
def MAX_UINT64 : Nat := 2 ^ 64 - 1

/-! ## Staging primitives -/

/-- Modelled from the spec: the macro `CPU_REGISTER_TABLE_WRITE64` is declared
in a header that is not among the sources; the spec describes it as
`StageRegisterWrite`, an append-only recording of a whole-register write. -/
def CPU_REGISTER_TABLE_WRITE64 (ProcessorNumber : Nat) (RegisterType : REGISTER_TYPE)
    (Index : Nat) (Value : Nat) (tbl : RegisterTable) : RegisterTable :=
  tbl ++ [⟨ProcessorNumber, RegisterType, Index, WriteKind.whole Value⟩]

/-- Modelled from the spec: the macro `CPU_REGISTER_TABLE_WRITE_FIELD` is
declared in a header that is not among the sources; the spec describes it as
`StageRegisterBitField (processor, class, identity, fieldSelector, value)`, an
append-only recording of a bit-field write. -/
def CPU_REGISTER_TABLE_WRITE_FIELD (ProcessorNumber : Nat) (RegisterType : REGISTER_TYPE)
    (Index : Nat) (Ty : RegisterUnion) (Field : BitsMember) (Value : Nat)
    (tbl : RegisterTable) : RegisterTable :=
  tbl ++ [⟨ProcessorNumber, RegisterType, Index, WriteKind.field Ty Field Value⟩]

/-! ## MCE -/

/-- `MceSupport`: `CpuInfo->CpuIdVersionInfoEdx.Bits.MCE == 1`. -/
def MceSupport (A : ArchDefs) (_env : Env) (_ProcessorNumber : Nat)
    (CpuInfo : REGISTER_CPU_FEATURE_INFORMATION) (_ConfigData : ConfigDataPtr) : Bool :=
  A.EDX_MCE.get CpuInfo.CpuIdVersionInfoEdx == 1

/-- `MceInitialize`: stage the MCE bit of CR4. -/
def MceInitialize (_A : ArchDefs) (_env : Env) (ProcessorNumber : Nat)
    (_CpuInfo : REGISTER_CPU_FEATURE_INFORMATION) (_ConfigData : ConfigDataPtr)
    (State : Bool) (tbl : RegisterTable) : RETURN_STATUS × RegisterTable :=
  (RETURN_STATUS.RETURN_SUCCESS,
    CPU_REGISTER_TABLE_WRITE_FIELD ProcessorNumber REGISTER_TYPE.ControlRegister 4
      RegisterUnion.IA32_CR4 BitsMember.MCE (if State then 1 else 0) tbl)

/-! ## MCA -/

/-- `McaSupport`: MCE must be supported, then `Bits.MCA == 1`. -/
def McaSupport (A : ArchDefs) (env : Env) (ProcessorNumber : Nat)
    (CpuInfo : REGISTER_CPU_FEATURE_INFORMATION) (ConfigData : ConfigDataPtr) : Bool :=
  if !MceSupport A env ProcessorNumber CpuInfo ConfigData then
    false
  else
    A.EDX_MCA.get CpuInfo.CpuIdVersionInfoEdx == 1

/-- The loop `for (BankIndex = ..; BankIndex < bound; BankIndex++)` over a
`UINT32` counter, entered at `BankIndex`; `body` is the loop body.  The bound
is a 32-bit value (`hb`), so the counter never wraps and the loop ends. -/
def forBankIndex (bound : Nat) (hb : bound < 2 ^ 32)
    (body : Nat → RegisterTable → RegisterTable) (BankIndex : Nat)
    (tbl : RegisterTable) : RegisterTable :=
  if h : BankIndex < bound then
    forBankIndex bound hb body ((BankIndex + 1) % 2 ^ 32) (body BankIndex tbl)
  else
    tbl
termination_by bound - BankIndex
decreasing_by omega

/-- `McaInitialize`: when enabling, read MCG_CAP, stage `MAX_UINT64` to every
bank's control MSR and, on a power-on reset, `0` to every bank's status MSR.
The MSR numbers are computed in `UINT32` arithmetic. -/
def McaInitialize (A : ArchDefs) (env : Env) (ProcessorNumber : Nat)
    (_CpuInfo : REGISTER_CPU_FEATURE_INFORMATION) (_ConfigData : ConfigDataPtr)
    (State : Bool) (tbl : RegisterTable) : RETURN_STATUS × RegisterTable :=
  if State then
    let McgCap := env.AsmReadMsr64 A.MSR_IA32_MCG_CAP % 2 ^ 64
    let Count := A.MCG_CAP_Count.get McgCap
    -- for (BankIndex = 0; BankIndex < (UINT32) McgCap.Bits.Count; BankIndex++)
    let tbl1 := forBankIndex (Count % 2 ^ 32) (Nat.mod_lt _ (by decide))
      (fun BankIndex t =>
        CPU_REGISTER_TABLE_WRITE64 ProcessorNumber REGISTER_TYPE.Msr
          ((A.MSR_IA32_MC0_CTL + BankIndex * 4) % 2 ^ 32) MAX_UINT64 t)
      0 tbl
    if env.PcdIsPowerOnReset then
      -- for (BankIndex = 0; BankIndex < (UINTN) McgCap.Bits.Count; BankIndex++)
      (RETURN_STATUS.RETURN_SUCCESS,
        forBankIndex Count
          (lt_of_lt_of_le (Nat.mod_lt _ (Nat.two_pow_pos _))
            (Nat.pow_le_pow_right (by decide) A.MCG_CAP_Count.width_le))
          (fun BankIndex t =>
            CPU_REGISTER_TABLE_WRITE64 ProcessorNumber REGISTER_TYPE.Msr
              ((A.MSR_IA32_MC0_STATUS + BankIndex * 4) % 2 ^ 32) 0 t)
          0 tbl1)
    else
      (RETURN_STATUS.RETURN_SUCCESS, tbl1)
  else
    (RETURN_STATUS.RETURN_SUCCESS, tbl)

/-! ## MCG_CTL -/

/-- `McgCtlSupport`: MCA must be supported, then `McgCap.Bits.MCG_CTL_P == 1`. -/
def McgCtlSupport (A : ArchDefs) (env : Env) (ProcessorNumber : Nat)
    (CpuInfo : REGISTER_CPU_FEATURE_INFORMATION) (ConfigData : ConfigDataPtr) : Bool :=
  if !McaSupport A env ProcessorNumber CpuInfo ConfigData then
    false
  else
    let McgCap := env.AsmReadMsr64 A.MSR_IA32_MCG_CAP % 2 ^ 64
    A.MCG_CAP_MCG_CTL_P.get McgCap == 1

/-- `McgCtlInitialize`: stage one whole-register write of IA32_MCG_CTL. -/
def McgCtlInitialize (A : ArchDefs) (_env : Env) (ProcessorNumber : Nat)
    (_CpuInfo : REGISTER_CPU_FEATURE_INFORMATION) (_ConfigData : ConfigDataPtr)
    (State : Bool) (tbl : RegisterTable) : RETURN_STATUS × RegisterTable :=
  (RETURN_STATUS.RETURN_SUCCESS,
    CPU_REGISTER_TABLE_WRITE64 ProcessorNumber REGISTER_TYPE.Msr A.MSR_IA32_MCG_CTL
      (if State then MAX_UINT64 else 0) tbl)

/-! ## LMCE -/

/-- Modelled from the spec: the macro `DEBUG` is declared in a header that is
not among the sources; the spec describes a diagnostic read of the resolved
boolean.  The diagnostic is appended to a log. -/
def DEBUG (msg : DebugMessage) (log : List DebugMessage) : List DebugMessage :=
  log ++ [msg]

/-- `LmceSupport`: MCA must be supported; on processor 0 the resolved boolean
is reported through `DEBUG`; the result is `McgCap.Bits.MCG_LMCE_P != 0`.
Returns the boolean and the diagnostic log. -/
def LmceSupport (A : ArchDefs) (env : Env) (ProcessorNumber : Nat)
    (CpuInfo : REGISTER_CPU_FEATURE_INFORMATION) (ConfigData : ConfigDataPtr)
    (log : List DebugMessage) : Bool × List DebugMessage :=
  if !McaSupport A env ProcessorNumber CpuInfo ConfigData then
    (false, log)
  else
    let McgCap := env.AsmReadMsr64 A.MSR_IA32_MCG_CAP % 2 ^ 64
    let log1 :=
      if ProcessorNumber = 0 then
        DEBUG (DebugMessage.LmceEnable (A.MCG_CAP_MCG_LMCE_P.get McgCap != 0)) log
      else
        log
    (A.MCG_CAP_MCG_LMCE_P.get McgCap != 0, log1)

/-- The macro `ASSERT` is declared in a header that is not among the sources.
A true condition lets the call go on.  A false one stops the call with a
contract violation where assertions do so (`A.AssertStopsCall`); otherwise
the macro does nothing and the call goes on. -/
def ASSERT (A : ArchDefs) (cond : Bool) : Except Fault Unit :=
  if cond then Except.ok ()
  else if A.AssertStopsCall then Except.error Fault.ContractViolation
  else Except.ok ()

/-- `LmceInitialize`: `ASSERT (ConfigData != NULL)`; then the Lock bit of
`MsrRegister[ProcessorNumber]` is read: if it is 0, the LmceOn bit of
IA32_FEATURE_CONTROL is staged; the only status returned is RETURN_SUCCESS.
With `ConfigData = NULL` and an assertion that does not stop the call, the
read goes through the NULL pointer: C defines no behaviour for it and the
model ends the call there with `Fault.NullDereference`.  When a call ends
with a fault the table is given as it stood at that point. -/
def LmceInitialize (A : ArchDefs) (_env : Env) (ProcessorNumber : Nat)
    (_CpuInfo : REGISTER_CPU_FEATURE_INFORMATION) (ConfigData : ConfigDataPtr)
    (State : Bool) (tbl : RegisterTable) : Except Fault RETURN_STATUS × RegisterTable :=
  match ASSERT A ConfigData.isSome with
  | Except.error fault => (Except.error fault, tbl)
  | Except.ok () =>
    match ConfigData with
    | some MsrRegister =>
      if A.FEATURE_CONTROL_Lock.get (MsrRegister ProcessorNumber) = 0 then
        (Except.ok RETURN_STATUS.RETURN_SUCCESS,
          CPU_REGISTER_TABLE_WRITE_FIELD ProcessorNumber REGISTER_TYPE.Msr
            A.MSR_IA32_FEATURE_CONTROL RegisterUnion.MSR_IA32_FEATURE_CONTROL_REGISTER
            BitsMember.LmceOn (if State then 1 else 0) tbl)
      else
        (Except.ok RETURN_STATUS.RETURN_SUCCESS, tbl)
    -- MsrRegister[ProcessorNumber] with MsrRegister = NULL
    | none => (Except.error Fault.NullDereference, tbl)

/-! ## Vocabulary of the properties -/

/-- The bank count `McaInitialize` uses: the Count member of the MCG_CAP
value it reads. -/
def bankCount (A : ArchDefs) (env : Env) : Nat :=
  A.MCG_CAP_Count.get (env.AsmReadMsr64 A.MSR_IA32_MCG_CAP % 2 ^ 64)

/-- The MSR numbers of `B` banks fit in 32 bits: `MSR_IA32_MC0_CTL + 4 * i` and
`MSR_IA32_MC0_STATUS + 4 * i` do not wrap for `i < B`. -/
def ArchDefs.BankIdsFit (A : ArchDefs) (B : Nat) : Prop :=
  A.MSR_IA32_MC0_CTL + 4 * B ≤ 2 ^ 32 ∧ A.MSR_IA32_MC0_STATUS + 4 * B ≤ 2 ^ 32

instance (A : ArchDefs) (B : Nat) : Decidable (A.BankIdsFit B) :=
  inferInstanceAs (Decidable (_ ∧ _))

/-- The control-register-clear writes as the specification lists them: for
bank `i = 0 .. B-1`, ascending, `MAX_UINT64` to MSR `MSR_IA32_MC0_CTL + 4 * i`
on processor `p`. -/
def expectedCtlClears (A : ArchDefs) (p B : Nat) : List RegisterModification :=
  (List.range B).map fun i =>
    ⟨p, REGISTER_TYPE.Msr, A.MSR_IA32_MC0_CTL + 4 * i, WriteKind.whole MAX_UINT64⟩

/-- The status-register-clear writes as the specification lists them: for
bank `i = 0 .. B-1`, ascending, `0` to MSR `MSR_IA32_MC0_STATUS + 4 * i` on
processor `p`. -/
def expectedStatusClears (A : ArchDefs) (p B : Nat) : List RegisterModification :=
  (List.range B).map fun i =>
    ⟨p, REGISTER_TYPE.Msr, A.MSR_IA32_MC0_STATUS + 4 * i, WriteKind.whole 0⟩

/-- A control-register-clear write: the all-ones mask written to the control
MSR of some bank (`MSR_IA32_MC0_CTL` plus a multiple of the stride 4). -/
def IsBankCtlClear (A : ArchDefs) (m : RegisterModification) : Prop :=
  m.RegisterType = REGISTER_TYPE.Msr ∧ m.write = WriteKind.whole MAX_UINT64 ∧
    A.MSR_IA32_MC0_CTL ≤ m.Index ∧ (m.Index - A.MSR_IA32_MC0_CTL) % 4 = 0

instance (A : ArchDefs) (m : RegisterModification) : Decidable (IsBankCtlClear A m) :=
  inferInstanceAs (Decidable (_ ∧ _ ∧ _ ∧ _))

/-- A status-register-clear write: zero written to the status MSR of some
bank (`MSR_IA32_MC0_STATUS` plus a multiple of the stride 4). -/
def IsBankStatusClear (A : ArchDefs) (m : RegisterModification) : Prop :=
  m.RegisterType = REGISTER_TYPE.Msr ∧ m.write = WriteKind.whole 0 ∧
    A.MSR_IA32_MC0_STATUS ≤ m.Index ∧ (m.Index - A.MSR_IA32_MC0_STATUS) % 4 = 0

instance (A : ArchDefs) (m : RegisterModification) : Decidable (IsBankStatusClear A m) :=
  inferInstanceAs (Decidable (_ ∧ _ ∧ _ ∧ _))

/-- The MCG_CAP value the code works with: `McgCap.Uint64 = AsmReadMsr64
(MSR_IA32_MCG_CAP)`. -/
def readMcgCap (A : ArchDefs) (env : Env) : Nat :=
  env.AsmReadMsr64 A.MSR_IA32_MCG_CAP % 2 ^ 64

/-- Sample feature-control snapshot: every processor unlocked. -/
def snapshotUnlocked : Nat → Nat := fun _ => 0

/-- Sample feature-control snapshot: every processor locked (bit 0 under
`ia32`). -/
def snapshotLocked : Nat → Nat := fun _ => 1

/-- Sample surroundings: MCG_CAP reads `0x8000102` (two banks, MCG_CTL_P and
MCG_LMCE_P set under the `ia32` layout), power-on reset. -/
def envColdBoot : Env := ⟨fun _ => 0x8000102, true⟩

/-- Sample surroundings: as `envColdBoot`, but not a power-on reset. -/
def envWarmBoot : Env := ⟨fun _ => 0x8000102, false⟩

/-- Sample CPUID word with MCE (bit 7) and MCA (bit 14) set under `ia32`. -/
def cpuInfoMceMca : REGISTER_CPU_FEATURE_INFORMATION := ⟨0x4080⟩

/-- Sample CPUID word with MCE clear and MCA set under `ia32`. -/
def cpuInfoNoMce : REGISTER_CPU_FEATURE_INFORMATION := ⟨0x4000⟩

/-- Sample feature-control snapshot: processor 2 unlocked with LmceOn (bit 20
under `ia32`) already set, every other processor locked. -/
def snapshotMixed : Nat → Nat := fun i => if i = 2 then 0x100000 else 1

/-! ## Committing staged modifications -/

/-- The register file: one 64-bit value per processor, register class and
register number. -/
abbrev RegisterFile := Nat → REGISTER_TYPE → Nat → Nat

/-- Register value `old` with the bit-field `f` replaced by `v` (truncated to
the width of the field); the bits above and below the field are kept. -/
def BitField.set (f : BitField) (old v : Nat) : Nat :=
  old / 2 ^ (f.lsb + f.width) * 2 ^ (f.lsb + f.width) + (v % 2 ^ f.width) * 2 ^ f.lsb
    + old % 2 ^ f.lsb

/-- The bit-field a field selector of a staged write denotes: `Bits.MCE` of
`IA32_CR4` and `Bits.LmceOn` of `MSR_IA32_FEATURE_CONTROL_REGISTER`; the
unions have no other member among the selectors. -/
def fieldBits (A : ArchDefs) : RegisterUnion → BitsMember → Option BitField
  | RegisterUnion.IA32_CR4, BitsMember.MCE => some A.CR4_MCE
  | RegisterUnion.MSR_IA32_FEATURE_CONTROL_REGISTER, BitsMember.LmceOn =>
    some A.FEATURE_CONTROL_LmceOn
  | _, _ => none

/-- Register file `s` with register `(p, ty, i)` set to `v`. -/
def writeRegister (s : RegisterFile) (p : Nat) (ty : REGISTER_TYPE) (i : Nat) (v : Nat) :
    RegisterFile :=
  fun p2 ty2 i2 => if p2 = p ∧ ty2 = ty ∧ i2 = i then v else s p2 ty2 i2

/-- Modelled from the spec: the committer of the register table is outside
the sources; a whole-register write replaces the value of its register, a
bit-field write replaces only that field. -/
def applyModification (A : ArchDefs) (m : RegisterModification) (s : RegisterFile) :
    RegisterFile :=
  match m.write with
  | WriteKind.whole v => writeRegister s m.ProcessorNumber m.RegisterType m.Index v
  | WriteKind.field Ty Field v =>
    match fieldBits A Ty Field with
    | some f =>
      writeRegister s m.ProcessorNumber m.RegisterType m.Index
        (f.set (s m.ProcessorNumber m.RegisterType m.Index) v)
    | none => s

/-- Modelled from the spec: committing a staged list applies its entries in
order, so later entries win. -/
def applyTable (A : ArchDefs) (tbl : RegisterTable) (s : RegisterFile) : RegisterFile :=
  tbl.foldl (fun acc m => applyModification A m acc) s

/-! ## The per-processor pass -/

/-- Modelled from the spec: the framework that drives the features is outside
the sources; for one processor it asks, in the order MCE, MCA, MCG_CTL, LMCE,
whether the feature is supported and calls its initializer exactly when it
is.  The result is the staged table, with the fault of an aborted
initializer if there is one. -/
def featurePass (A : ArchDefs) (env : Env) (ProcessorNumber : Nat)
    (CpuInfo : REGISTER_CPU_FEATURE_INFORMATION) (ConfigData : ConfigDataPtr)
    (State : Bool) (tbl : RegisterTable) : Except Fault Unit × RegisterTable :=
  let t1 :=
    if MceSupport A env ProcessorNumber CpuInfo ConfigData then
      (MceInitialize A env ProcessorNumber CpuInfo ConfigData State tbl).2
    else tbl
  let t2 :=
    if McaSupport A env ProcessorNumber CpuInfo ConfigData then
      (McaInitialize A env ProcessorNumber CpuInfo ConfigData State t1).2
    else t1
  let t3 :=
    if McgCtlSupport A env ProcessorNumber CpuInfo ConfigData then
      (McgCtlInitialize A env ProcessorNumber CpuInfo ConfigData State t2).2
    else t2
  if (LmceSupport A env ProcessorNumber CpuInfo ConfigData []).1 then
    match LmceInitialize A env ProcessorNumber CpuInfo ConfigData State t3 with
    | (Except.ok _, t4) => (Except.ok (), t4)
    | (Except.error fault, t4) => (Except.error fault, t4)
  else
    (Except.ok (), t3)

/-! ## Auxiliary facts -/

/-- The bank loop with an appending body appends the body's entries for the
remaining indices, in ascending order. -/
theorem forBankIndex_append (bound : Nat) (hb : bound < 2 ^ 32)
    (f : Nat → RegisterModification) :
    ∀ (n i : Nat) (tbl : RegisterTable), i + n = bound →
      forBankIndex bound hb (fun k t => t ++ [f k]) i tbl
        = tbl ++ (List.range' i n).map f := by
  intro n
  induction n with
  | zero =>
    intro i tbl h
    unfold forBankIndex
    have hi : ¬ i < bound := by omega
    simp [hi]
  | succ n ih =>
    intro i tbl h
    unfold forBankIndex
    have hi : i < bound := by omega
    have hs : (i + 1) % 2 ^ 32 = i + 1 := Nat.mod_eq_of_lt (by omega)
    rw [dif_pos hi, hs, ih (i + 1) _ (by omega)]
    simp [List.range'_succ]

/-- The whole bank loop, from index 0. -/
theorem forBankIndex_zero (bound : Nat) (hb : bound < 2 ^ 32)
    (f : Nat → RegisterModification) (tbl : RegisterTable) :
    forBankIndex bound hb (fun k t => t ++ [f k]) 0 tbl
      = tbl ++ (List.range bound).map f := by
  rw [forBankIndex_append bound hb f bound 0 tbl (by omega), List.range_eq_range']

/-- The bank count is a 32-bit value. -/
theorem bankCount_lt (A : ArchDefs) (env : Env) : bankCount A env < 2 ^ 32 :=
  lt_of_lt_of_le (Nat.mod_lt _ (Nat.two_pow_pos _))
    (Nat.pow_le_pow_right (by decide) A.MCG_CAP_Count.width_le)

/-- What `McaInitialize` does, with the MSR numbers as the code computes them
(in 32-bit arithmetic). -/
theorem McaInitialize_eq (A : ArchDefs) (env : Env) (p : Nat)
    (ci : REGISTER_CPU_FEATURE_INFORMATION) (cfg : ConfigDataPtr) (State : Bool)
    (tbl : RegisterTable) :
    McaInitialize A env p ci cfg State tbl =
      (RETURN_STATUS.RETURN_SUCCESS,
        tbl ++ (if State then
          ((List.range (bankCount A env)).map fun i =>
            (⟨p, REGISTER_TYPE.Msr, (A.MSR_IA32_MC0_CTL + i * 4) % 2 ^ 32,
              WriteKind.whole MAX_UINT64⟩ : RegisterModification))
          ++ (if env.PcdIsPowerOnReset then
            ((List.range (bankCount A env)).map fun i =>
              (⟨p, REGISTER_TYPE.Msr, (A.MSR_IA32_MC0_STATUS + i * 4) % 2 ^ 32,
                WriteKind.whole 0⟩ : RegisterModification))
            else [])
          else [])) := by
  have hB := bankCount_lt A env
  have hmod : bankCount A env % 2 ^ 32 = bankCount A env := Nat.mod_eq_of_lt hB
  cases State with
  | false => simp [McaInitialize]
  | true =>
    simp only [McaInitialize, CPU_REGISTER_TABLE_WRITE64, if_true]
    simp only [forBankIndex_zero]
    cases hp : env.PcdIsPowerOnReset with
    | false => simp [bankCount] at hmod ⊢; rw [Nat.mod_eq_of_lt hmod]
    | true => simp [bankCount] at hmod ⊢; rw [Nat.mod_eq_of_lt hmod]

/-- A single-bit member reads as 0 or 1. -/
theorem BitField.get_lt_two (f : BitField) (hw : f.width = 1) (raw : Nat) :
    f.get raw < 2 := by
  unfold BitField.get
  rw [hw]
  exact Nat.mod_lt _ (by decide)

/-- Without 32-bit wrap the control MSR numbers the code computes are the
listed ones. -/
theorem ctl_entries_eq_expected (A : ArchDefs) (p B : Nat)
    (hfit : A.MSR_IA32_MC0_CTL + 4 * B ≤ 2 ^ 32) :
    ((List.range B).map fun i =>
      (⟨p, REGISTER_TYPE.Msr, (A.MSR_IA32_MC0_CTL + i * 4) % 2 ^ 32,
        WriteKind.whole MAX_UINT64⟩ : RegisterModification))
      = expectedCtlClears A p B := by
  unfold expectedCtlClears
  apply List.map_congr_left
  intro i hi
  have hlt : i < B := List.mem_range.mp hi
  have hmod : (A.MSR_IA32_MC0_CTL + i * 4) % 2 ^ 32 = A.MSR_IA32_MC0_CTL + 4 * i :=
    by rw [Nat.mod_eq_of_lt (by omega)]; omega
  rw [hmod]

/-- Without 32-bit wrap the status MSR numbers the code computes are the
listed ones. -/
theorem status_entries_eq_expected (A : ArchDefs) (p B : Nat)
    (hfit : A.MSR_IA32_MC0_STATUS + 4 * B ≤ 2 ^ 32) :
    ((List.range B).map fun i =>
      (⟨p, REGISTER_TYPE.Msr, (A.MSR_IA32_MC0_STATUS + i * 4) % 2 ^ 32,
        WriteKind.whole 0⟩ : RegisterModification))
      = expectedStatusClears A p B := by
  unfold expectedStatusClears
  apply List.map_congr_left
  intro i hi
  have hlt : i < B := List.mem_range.mp hi
  have hmod : (A.MSR_IA32_MC0_STATUS + i * 4) % 2 ^ 32 = A.MSR_IA32_MC0_STATUS + 4 * i :=
    by rw [Nat.mod_eq_of_lt (by omega)]; omega
  rw [hmod]

/-- What `McaInitialize` stages, in the listed form, when the bank MSR
numbers do not wrap. -/
theorem McaInitialize_eq_expected (A : ArchDefs) (env : Env) (p : Nat)
    (ci : REGISTER_CPU_FEATURE_INFORMATION) (cfg : ConfigDataPtr) (State : Bool)
    (tbl : RegisterTable) (hfit : A.BankIdsFit (bankCount A env)) :
    McaInitialize A env p ci cfg State tbl =
      (RETURN_STATUS.RETURN_SUCCESS,
        tbl ++ (if State then
          expectedCtlClears A p (bankCount A env)
            ++ (if env.PcdIsPowerOnReset then expectedStatusClears A p (bankCount A env)
                else [])
          else [])) := by
  rw [McaInitialize_eq, ctl_entries_eq_expected A p _ hfit.1,
    status_entries_eq_expected A p _ hfit.2]

theorem MAX_UINT64_ne_zero : MAX_UINT64 ≠ 0 := by decide

/-- Every listed control write is a control-register-clear write. -/
theorem isBankCtlClear_of_mem (A : ArchDefs) (p B : Nat) (m : RegisterModification)
    (hm : m ∈ expectedCtlClears A p B) : IsBankCtlClear A m := by
  obtain ⟨i, _, rfl⟩ := List.mem_map.mp hm
  refine ⟨rfl, rfl, ?_, ?_⟩
  · show A.MSR_IA32_MC0_CTL ≤ A.MSR_IA32_MC0_CTL + 4 * i
    omega
  · show (A.MSR_IA32_MC0_CTL + 4 * i - A.MSR_IA32_MC0_CTL) % 4 = 0
    omega

/-- Every listed status write is a status-register-clear write. -/
theorem isBankStatusClear_of_mem (A : ArchDefs) (p B : Nat) (m : RegisterModification)
    (hm : m ∈ expectedStatusClears A p B) : IsBankStatusClear A m := by
  obtain ⟨i, _, rfl⟩ := List.mem_map.mp hm
  refine ⟨rfl, rfl, ?_, ?_⟩
  · show A.MSR_IA32_MC0_STATUS ≤ A.MSR_IA32_MC0_STATUS + 4 * i
    omega
  · show (A.MSR_IA32_MC0_STATUS + 4 * i - A.MSR_IA32_MC0_STATUS) % 4 = 0
    omega

/-- No listed control write is a status-register-clear write: the values differ. -/
theorem not_isBankStatusClear_of_mem_ctl (A : ArchDefs) (p B : Nat)
    (m : RegisterModification) (hm : m ∈ expectedCtlClears A p B) :
    ¬ IsBankStatusClear A m := by
  obtain ⟨i, _, rfl⟩ := List.mem_map.mp hm
  intro h
  have hw := h.2.1
  simp only [WriteKind.whole.injEq] at hw
  exact MAX_UINT64_ne_zero hw

/-- No listed status write is a control-register-clear write: the values differ. -/
theorem not_isBankCtlClear_of_mem_status (A : ArchDefs) (p B : Nat)
    (m : RegisterModification) (hm : m ∈ expectedStatusClears A p B) :
    ¬ IsBankCtlClear A m := by
  obtain ⟨i, _, rfl⟩ := List.mem_map.mp hm
  intro h
  have hw := h.2.1
  simp only [WriteKind.whole.injEq] at hw
  exact MAX_UINT64_ne_zero hw.symm

theorem expectedCtlClears_length (A : ArchDefs) (p B : Nat) :
    (expectedCtlClears A p B).length = B := by
  simp [expectedCtlClears]

theorem expectedStatusClears_length (A : ArchDefs) (p B : Nat) :
    (expectedStatusClears A p B).length = B := by
  simp [expectedStatusClears]

/-- Counting the control-register-clear writes of the two listed families. -/
theorem countP_ctl_expected (A : ArchDefs) (p B : Nat) :
    (expectedCtlClears A p B).countP (fun m => decide (IsBankCtlClear A m)) = B ∧
    (expectedStatusClears A p B).countP (fun m => decide (IsBankCtlClear A m)) = 0 := by
  constructor
  · have h : (expectedCtlClears A p B).countP (fun m => decide (IsBankCtlClear A m))
        = (expectedCtlClears A p B).length :=
      List.countP_eq_length.mpr fun m hm =>
        decide_eq_true (isBankCtlClear_of_mem A p B m hm)
    rw [h, expectedCtlClears_length]
  · rw [List.countP_eq_zero]
    intro m hm
    simpa using not_isBankCtlClear_of_mem_status A p B m hm

/-- Counting the status-register-clear writes of the two listed families. -/
theorem countP_status_expected (A : ArchDefs) (p B : Nat) :
    (expectedCtlClears A p B).countP (fun m => decide (IsBankStatusClear A m)) = 0 ∧
    (expectedStatusClears A p B).countP (fun m => decide (IsBankStatusClear A m)) = B := by
  constructor
  · rw [List.countP_eq_zero]
    intro m hm
    simpa using not_isBankStatusClear_of_mem_ctl A p B m hm
  · have h : (expectedStatusClears A p B).countP (fun m => decide (IsBankStatusClear A m))
        = (expectedStatusClears A p B).length :=
      List.countP_eq_length.mpr fun m hm =>
        decide_eq_true (isBankStatusClear_of_mem A p B m hm)
    rw [h, expectedStatusClears_length]

/-- The MSR numbers of the listed control writes are pairwise distinct. -/
theorem nodup_ctl_indices (A : ArchDefs) (p B : Nat) :
    ((expectedCtlClears A p B).map fun m => m.Index).Nodup := by
  simp only [expectedCtlClears, List.map_map]
  refine (List.nodup_range B).map ?_
  intro i j h
  simp only [Function.comp] at h
  omega

/-- The MSR numbers of the listed status writes are pairwise distinct. -/
theorem nodup_status_indices (A : ArchDefs) (p B : Nat) :
    ((expectedStatusClears A p B).map fun m => m.Index).Nodup := by
  simp only [expectedStatusClears, List.map_map]
  refine (List.nodup_range B).map ?_
  intro i j h
  simp only [Function.comp] at h
  omega

/-- With bases in different residue classes modulo the stride 4, the MSR
numbers of the listed control and status writes are pairwise distinct. -/
theorem nodup_bank_indices (A : ArchDefs) (p B : Nat)
    (hsep : A.MSR_IA32_MC0_CTL % 4 ≠ A.MSR_IA32_MC0_STATUS % 4) :
    ((expectedCtlClears A p B ++ expectedStatusClears A p B).map fun m => m.Index).Nodup := by
  rw [List.map_append, List.nodup_append]
  refine ⟨nodup_ctl_indices A p B, nodup_status_indices A p B, ?_⟩
  intro x hx hy
  simp only [expectedCtlClears, expectedStatusClears, List.map_map, List.mem_map,
    Function.comp] at hx hy
  obtain ⟨i, _, rfl⟩ := hx
  obtain ⟨j, _, hj⟩ := hy
  omega

/-- With the MCE bit clear, the pass calls no initializer. -/
theorem featurePass_without_mce (A : ArchDefs) (env : Env) (p : Nat)
    (ci : REGISTER_CPU_FEATURE_INFORMATION) (cfg : ConfigDataPtr) (State : Bool)
    (tbl : RegisterTable) (hMCE : A.EDX_MCE.get ci.CpuIdVersionInfoEdx = 0) :
    featurePass A env p ci cfg State tbl = (Except.ok (), tbl) := by
  simp [featurePass, McaSupport, McgCtlSupport, LmceSupport, MceSupport, hMCE]

/-- With every feature supported, enabling requested and the processor
unlocked, the pass stages the writes of the four initializers in order. -/
theorem featurePass_all_supported (A : ArchDefs) (env : Env) (p : Nat)
    (ci : REGISTER_CPU_FEATURE_INFORMATION) (snapshot : Nat → Nat) (tbl : RegisterTable)
    (hMCE : A.EDX_MCE.get ci.CpuIdVersionInfoEdx = 1)
    (hMCA : A.EDX_MCA.get ci.CpuIdVersionInfoEdx = 1)
    (hCTL : A.MCG_CAP_MCG_CTL_P.get (readMcgCap A env) = 1)
    (hLMCE : A.MCG_CAP_MCG_LMCE_P.get (readMcgCap A env) = 1)
    (hLock : A.FEATURE_CONTROL_Lock.get (snapshot p) = 0)
    (hfit : A.BankIdsFit (bankCount A env)) :
    featurePass A env p ci (some snapshot) true tbl =
      (Except.ok (),
        tbl ++ [⟨p, REGISTER_TYPE.ControlRegister, 4,
            WriteKind.field RegisterUnion.IA32_CR4 BitsMember.MCE 1⟩]
          ++ expectedCtlClears A p (bankCount A env)
          ++ (if env.PcdIsPowerOnReset then expectedStatusClears A p (bankCount A env)
              else [])
          ++ [⟨p, REGISTER_TYPE.Msr, A.MSR_IA32_MCG_CTL, WriteKind.whole MAX_UINT64⟩]
          ++ [⟨p, REGISTER_TYPE.Msr, A.MSR_IA32_FEATURE_CONTROL,
            WriteKind.field RegisterUnion.MSR_IA32_FEATURE_CONTROL_REGISTER
              BitsMember.LmceOn 1⟩]) := by
  simp only [readMcgCap, Nat.reducePow] at hCTL hLMCE
  have h1 : MceSupport A env p ci (some snapshot) = true := by simp [MceSupport, hMCE]
  have h2 : McaSupport A env p ci (some snapshot) = true := by simp [McaSupport, h1, hMCA]
  have h3 : McgCtlSupport A env p ci (some snapshot) = true := by
    simp [McgCtlSupport, h2, hCTL]
  have h4 : (LmceSupport A env p ci (some snapshot) []).1 = true := by
    simp [LmceSupport, h2, hLMCE]
  simp only [featurePass, h1, h2, h3, h4, if_true]
  rw [McaInitialize_eq_expected A env p ci (some snapshot) true _ hfit]
  simp [MceInitialize, McgCtlInitialize, LmceInitialize, ASSERT, hLock,
    CPU_REGISTER_TABLE_WRITE_FIELD, CPU_REGISTER_TABLE_WRITE64]

/-- Arithmetic of a value assembled from a high part, a field and a low part. -/
theorem set_shape (m W H V Lo : Nat) (hm : 0 < m) (hV : V < W) (hLo : Lo < m) :
    (H * (m * W) + V * m + Lo) / (m * W) = H ∧ (H * (m * W) + V * m + Lo) % m = Lo := by
  have hW : 0 < W := by omega
  have hr : V * m + Lo < m * W := by
    have h1 : (V + 1) * m ≤ W * m := Nat.mul_le_mul_right m hV
    have h2 : (V + 1) * m = V * m + m := by ring
    have h3 : W * m = m * W := Nat.mul_comm _ _
    omega
  constructor
  · have e : H * (m * W) + V * m + Lo = (V * m + Lo) + H * (m * W) := by ring
    rw [e, Nat.add_mul_div_right _ _ (Nat.mul_pos hm hW), Nat.div_eq_of_lt hr, Nat.zero_add]
  · have e : H * (m * W) + V * m + Lo = Lo + (H * W + V) * m := by ring
    rw [e, Nat.add_mul_mod_self_right, Nat.mod_eq_of_lt hLo]

/-- Writing the same value into a bit-field twice is writing it once. -/
theorem BitField.set_set (f : BitField) (old v : Nat) :
    f.set (f.set old v) v = f.set old v := by
  unfold BitField.set
  rw [Nat.pow_add]
  have hm : 0 < 2 ^ f.lsb := Nat.two_pow_pos _
  have hV : v % 2 ^ f.width < 2 ^ f.width := Nat.mod_lt _ (Nat.two_pow_pos _)
  have hLo : old % 2 ^ f.lsb < 2 ^ f.lsb := Nat.mod_lt _ hm
  obtain ⟨h1, h2⟩ := set_shape (2 ^ f.lsb) (2 ^ f.width) (old / (2 ^ f.lsb * 2 ^ f.width))
    (v % 2 ^ f.width) (old % 2 ^ f.lsb) hm hV hLo
  rw [h1, h2]

/-- A bit-field write reads back the value written, truncated to the field. -/
theorem BitField.get_set (f : BitField) (old v : Nat) :
    f.get (f.set old v) = v % 2 ^ f.width := by
  unfold BitField.get BitField.set
  rw [Nat.pow_add]
  have hm : 0 < 2 ^ f.lsb := Nat.two_pow_pos _
  have hLo : old % 2 ^ f.lsb < 2 ^ f.lsb := Nat.mod_lt _ hm
  have e : old / (2 ^ f.lsb * 2 ^ f.width) * (2 ^ f.lsb * 2 ^ f.width)
        + v % 2 ^ f.width * 2 ^ f.lsb + old % 2 ^ f.lsb
      = old % 2 ^ f.lsb
        + (v % 2 ^ f.width + old / (2 ^ f.lsb * 2 ^ f.width) * 2 ^ f.width) * 2 ^ f.lsb := by
    ring
  rw [e, Nat.add_mul_div_right _ _ hm, Nat.div_eq_of_lt hLo, Nat.zero_add,
    Nat.add_mul_mod_self_right, Nat.mod_mod]

/-- Committing a concatenation commits the parts in order. -/
theorem applyTable_append (A : ArchDefs) (l1 l2 : RegisterTable) (s : RegisterFile) :
    applyTable A (l1 ++ l2) s = applyTable A l2 (applyTable A l1 s) := by
  simp [applyTable, List.foldl_append]

/-- Committing a whole-register write. -/
theorem applyModification_whole (A : ArchDefs) (m : RegisterModification) (s : RegisterFile)
    (v : Nat) (hw : m.write = WriteKind.whole v) :
    applyModification A m s = writeRegister s m.ProcessorNumber m.RegisterType m.Index v := by
  unfold applyModification
  simp only [hw]

/-- Committing a bit-field write whose selector denotes a field. -/
theorem applyModification_field (A : ArchDefs) (m : RegisterModification) (s : RegisterFile)
    (Ty : RegisterUnion) (Field : BitsMember) (v : Nat) (f : BitField)
    (hw : m.write = WriteKind.field Ty Field v) (hf : fieldBits A Ty Field = some f) :
    applyModification A m s
      = writeRegister s m.ProcessorNumber m.RegisterType m.Index
          (f.set (s m.ProcessorNumber m.RegisterType m.Index) v) := by
  unfold applyModification
  simp only [hw, hf]

/-- Committing a bit-field write whose selector denotes no field. -/
theorem applyModification_no_field (A : ArchDefs) (m : RegisterModification)
    (s : RegisterFile) (Ty : RegisterUnion) (Field : BitsMember) (v : Nat)
    (hw : m.write = WriteKind.field Ty Field v) (hf : fieldBits A Ty Field = none) :
    applyModification A m s = s := by
  unfold applyModification
  simp only [hw, hf]

/-- Committing one modification twice is committing it once. -/
theorem applyModification_twice (A : ArchDefs) (m : RegisterModification) (s : RegisterFile) :
    applyModification A m (applyModification A m s) = applyModification A m s := by
  cases hw : m.write with
  | whole v =>
    simp only [applyModification_whole A m _ v hw]
    funext p2 ty2 i2
    simp only [writeRegister]
    split <;> rfl
  | field Ty Field v =>
    cases hf : fieldBits A Ty Field with
    | none => simp only [applyModification_no_field A m _ Ty Field v hw hf]
    | some f =>
      simp only [applyModification_field A m _ Ty Field v f hw hf]
      funext p2 ty2 i2
      simp only [writeRegister]
      by_cases hk : p2 = m.ProcessorNumber ∧ ty2 = m.RegisterType ∧ i2 = m.Index
      · simp only [hk, and_self, if_true, BitField.set_set]
      · simp only [hk, if_false]

/-- A register the modification does not address keeps its value. -/
theorem applyModification_frame (A : ArchDefs) (m : RegisterModification) (s : RegisterFile)
    (p : Nat) (ty : REGISTER_TYPE) (i : Nat)
    (hm : ¬ (p = m.ProcessorNumber ∧ ty = m.RegisterType ∧ i = m.Index)) :
    applyModification A m s p ty i = s p ty i := by
  cases hw : m.write with
  | whole v =>
    rw [applyModification_whole A m s v hw]
    simp only [writeRegister, hm, if_false]
  | field Ty Field v =>
    cases hf : fieldBits A Ty Field with
    | none => rw [applyModification_no_field A m s Ty Field v hw hf]
    | some f =>
      rw [applyModification_field A m s Ty Field v f hw hf]
      simp only [writeRegister, hm, if_false]

/-- A register no entry of the list addresses keeps its value. -/
theorem applyTable_frame (A : ArchDefs) (l : RegisterTable) :
    ∀ (s : RegisterFile) (p : Nat) (ty : REGISTER_TYPE) (i : Nat),
      (∀ m ∈ l, ¬ (p = m.ProcessorNumber ∧ ty = m.RegisterType ∧ i = m.Index)) →
      applyTable A l s p ty i = s p ty i := by
  induction l with
  | nil => intro s p ty i _; rfl
  | cons m l ih =>
    intro s p ty i h
    have hm := h m (List.mem_cons_self _ _)
    have hl : ∀ m2 ∈ l, ¬ (p = m2.ProcessorNumber ∧ ty = m2.RegisterType ∧ i = m2.Index) :=
      fun m2 h2 => h m2 (List.mem_cons_of_mem _ h2)
    show applyTable A l (applyModification A m s) p ty i = s p ty i
    rw [ih _ p ty i hl, applyModification_frame A m s p ty i hm]

/-- The result of committing whole-register writes depends only on the
registers the list does not address. -/
theorem applyTable_congr_whole (A : ArchDefs) (l : RegisterTable)
    (hl : ∀ m ∈ l, ∃ v, m.write = WriteKind.whole v) :
    ∀ (s s2 : RegisterFile),
      (∀ (p : Nat) (ty : REGISTER_TYPE) (i : Nat),
        (∀ m ∈ l, ¬ (p = m.ProcessorNumber ∧ ty = m.RegisterType ∧ i = m.Index)) →
        s p ty i = s2 p ty i) →
      applyTable A l s = applyTable A l s2 := by
  induction l with
  | nil =>
    intro s s2 h
    funext p ty i
    exact h p ty i (fun m hm => absurd hm (List.not_mem_nil m))
  | cons m l ih =>
    intro s s2 h
    obtain ⟨v, hv⟩ := hl m (List.mem_cons_self _ _)
    show applyTable A l (applyModification A m s) = applyTable A l (applyModification A m s2)
    apply ih (fun m2 h2 => hl m2 (List.mem_cons_of_mem _ h2))
    intro p ty i hfree
    rw [applyModification_whole A m s v hv, applyModification_whole A m s2 v hv]
    simp only [writeRegister]
    by_cases hk : p = m.ProcessorNumber ∧ ty = m.RegisterType ∧ i = m.Index
    · simp only [hk, and_self, if_true]
    · simp only [hk, if_false]
      apply h p ty i
      intro m2 h2
      rcases List.mem_cons.mp h2 with rfl | h3
      · exact hk
      · exact hfree m2 h3

/-- Committing a list of whole-register writes twice is committing it once. -/
theorem applyTable_whole_twice (A : ArchDefs) (l : RegisterTable)
    (hl : ∀ m ∈ l, ∃ v, m.write = WriteKind.whole v) (s : RegisterFile) :
    applyTable A (l ++ l) s = applyTable A l s := by
  rw [applyTable_append]
  apply applyTable_congr_whole A l hl
  intro p ty i hfree
  exact applyTable_frame A l s p ty i hfree

/-- `LmceInitialize` on a NULL `ConfigData`: the call ends at the assertion
where assertions stop the call, and at the read through NULL otherwise; no
entry is staged before either point. -/
theorem LmceInitialize_null (A : ArchDefs) (env : Env) (p : Nat)
    (ci : REGISTER_CPU_FEATURE_INFORMATION) (State : Bool) (tbl : RegisterTable) :
    LmceInitialize A env p ci none State tbl
      = (Except.error (if A.AssertStopsCall then Fault.ContractViolation
          else Fault.NullDereference), tbl) := by
  cases h : A.AssertStopsCall <;> simp [LmceInitialize, ASSERT, h]

/-! ## Support predicates -/

/-- C1: when the MCE bit of the CPUID feature word is 0, McaSupport,
McgCtlSupport and LmceSupport all return FALSE, for every processor number,
every MCG_CAP value and every value of the other bits. -/
theorem C1_children_unsupported_without_mce (A : ArchDefs) (env : Env) (p : Nat)
    (ci : REGISTER_CPU_FEATURE_INFORMATION) (cfg : ConfigDataPtr) (log : List DebugMessage)
    (hMCE : A.EDX_MCE.get ci.CpuIdVersionInfoEdx = 0) :
    McaSupport A env p ci cfg = false ∧ McgCtlSupport A env p ci cfg = false ∧
      (LmceSupport A env p ci cfg log).1 = false := by
  simp [McaSupport, McgCtlSupport, LmceSupport, MceSupport, hMCE]

/-- Witness of C1 under the IA-32 layout: CPUID word with MCA set and MCE
clear, MCG_CAP with MCG_CTL_P and MCG_LMCE_P set. -/
theorem C1_children_unsupported_without_mce_witness :
    ia32.EDX_MCE.get cpuInfoNoMce.CpuIdVersionInfoEdx = 0 ∧
      (McaSupport ia32 envColdBoot 0 cpuInfoNoMce none = false ∧
        McgCtlSupport ia32 envColdBoot 0 cpuInfoNoMce none = false ∧
        (LmceSupport ia32 envColdBoot 0 cpuInfoNoMce none []).1 = false) :=
  ⟨by decide,
    C1_children_unsupported_without_mce ia32 envColdBoot 0 cpuInfoNoMce none [] (by decide)⟩

/-- C2: each support predicate is the conjunction of its parent predicate and
its own hardware bit: MceSupport = (MCE = 1); McaSupport = MceSupport and
(MCA = 1); McgCtlSupport = McaSupport and (MCG_CTL_P = 1); LmceSupport =
McaSupport and (MCG_LMCE_P = 1), MCG_LMCE_P being a single bit. -/
theorem C2_support_is_parent_and_own_bit (A : ArchDefs) (env : Env) (p : Nat)
    (ci : REGISTER_CPU_FEATURE_INFORMATION) (cfg : ConfigDataPtr) (log : List DebugMessage)
    (hbit : A.MCG_CAP_MCG_LMCE_P.width = 1) :
    MceSupport A env p ci cfg = decide (A.EDX_MCE.get ci.CpuIdVersionInfoEdx = 1) ∧
    McaSupport A env p ci cfg
      = (MceSupport A env p ci cfg && decide (A.EDX_MCA.get ci.CpuIdVersionInfoEdx = 1)) ∧
    McgCtlSupport A env p ci cfg
      = (McaSupport A env p ci cfg
          && decide (A.MCG_CAP_MCG_CTL_P.get (readMcgCap A env) = 1)) ∧
    (LmceSupport A env p ci cfg log).1
      = (McaSupport A env p ci cfg
          && decide (A.MCG_CAP_MCG_LMCE_P.get (readMcgCap A env) = 1)) := by
  have h2 := A.MCG_CAP_MCG_LMCE_P.get_lt_two hbit (readMcgCap A env)
  have hne : (A.MCG_CAP_MCG_LMCE_P.get (readMcgCap A env) != 0)
      = decide (A.MCG_CAP_MCG_LMCE_P.get (readMcgCap A env) = 1) := by
    generalize A.MCG_CAP_MCG_LMCE_P.get (readMcgCap A env) = v at h2
    interval_cases v <;> rfl
  have hbeq : ∀ v : Nat, (v == 1) = decide (v = 1) := fun v => by
    by_cases hv : v = 1 <;> simp [hv]
  refine ⟨?_, ?_, ?_, ?_⟩
  · simp only [MceSupport, hbeq]
  · cases h : MceSupport A env p ci cfg <;> simp [McaSupport, h, hbeq]
  · cases h : McaSupport A env p ci cfg <;> simp [McgCtlSupport, h, readMcgCap, hbeq]
  · cases h : McaSupport A env p ci cfg
    · simp [LmceSupport, h]
    · simp only [LmceSupport, h, Bool.not_true, Bool.true_and]
      exact hne

/-- Witness of C2 under the IA-32 layout. -/
theorem C2_support_is_parent_and_own_bit_witness :
    ia32.MCG_CAP_MCG_LMCE_P.width = 1 ∧
    (MceSupport ia32 envColdBoot 0 cpuInfoMceMca none
      = decide (ia32.EDX_MCE.get cpuInfoMceMca.CpuIdVersionInfoEdx = 1) ∧
    McaSupport ia32 envColdBoot 0 cpuInfoMceMca none
      = (MceSupport ia32 envColdBoot 0 cpuInfoMceMca none
          && decide (ia32.EDX_MCA.get cpuInfoMceMca.CpuIdVersionInfoEdx = 1)) ∧
    McgCtlSupport ia32 envColdBoot 0 cpuInfoMceMca none
      = (McaSupport ia32 envColdBoot 0 cpuInfoMceMca none
          && decide (ia32.MCG_CAP_MCG_CTL_P.get (readMcgCap ia32 envColdBoot) = 1)) ∧
    (LmceSupport ia32 envColdBoot 0 cpuInfoMceMca none []).1
      = (McaSupport ia32 envColdBoot 0 cpuInfoMceMca none
          && decide (ia32.MCG_CAP_MCG_LMCE_P.get (readMcgCap ia32 envColdBoot) = 1))) :=
  ⟨rfl, C2_support_is_parent_and_own_bit ia32 envColdBoot 0 cpuInfoMceMca none [] rfl⟩

/-! ## McaInitialize -/

/-- C3: McaInitialize with State = TRUE stages, on a power-on reset, exactly B
control-register-clear writes and exactly B status-register-clear writes
whose 2B MSR numbers are pairwise distinct, and otherwise exactly B
control-register-clear writes and no status-register-clear write; B is the
Count member of MCG_CAP.  The MSR bases come from the header: the bank
numbers are taken not to wrap in 32 bits and the two bases to differ modulo
the stride 4. -/
theorem C3_mca_enable_write_counts (A : ArchDefs) (env : Env) (p : Nat)
    (ci : REGISTER_CPU_FEATURE_INFORMATION) (cfg : ConfigDataPtr) (tbl : RegisterTable)
    (hfit : A.BankIdsFit (bankCount A env))
    (hsep : A.MSR_IA32_MC0_CTL % 4 ≠ A.MSR_IA32_MC0_STATUS % 4) :
    ∃ staged : List RegisterModification,
      (McaInitialize A env p ci cfg true tbl).2 = tbl ++ staged ∧
      staged.countP (fun m => decide (IsBankCtlClear A m)) = bankCount A env ∧
      staged.countP (fun m => decide (IsBankStatusClear A m))
        = (if env.PcdIsPowerOnReset then bankCount A env else 0) ∧
      staged.length = bankCount A env + (if env.PcdIsPowerOnReset then bankCount A env else 0) ∧
      (staged.map fun m => m.Index).Nodup := by
  rw [McaInitialize_eq_expected A env p ci cfg true tbl hfit]
  refine ⟨_, rfl, ?_⟩
  have hc := countP_ctl_expected A p (bankCount A env)
  have hs := countP_status_expected A p (bankCount A env)
  cases hp : env.PcdIsPowerOnReset with
  | false =>
    simp only [if_true, Bool.false_eq_true, if_false, List.append_nil, Nat.add_zero]
    exact ⟨hc.1, hs.1, expectedCtlClears_length A p _, nodup_ctl_indices A p _⟩
  | true =>
    simp only [if_true]
    refine ⟨?_, ?_, ?_, nodup_bank_indices A p _ hsep⟩
    · rw [List.countP_append, hc.1, hc.2, Nat.add_zero]
    · rw [List.countP_append, hs.1, hs.2, Nat.zero_add]
    · rw [List.length_append, expectedCtlClears_length, expectedStatusClears_length]

/-- Witness of C3: IA-32 MSR numbers, two banks, power-on reset. -/
theorem C3_mca_enable_write_counts_witness :
    ia32.BankIdsFit (bankCount ia32 envColdBoot) ∧
    ia32.MSR_IA32_MC0_CTL % 4 ≠ ia32.MSR_IA32_MC0_STATUS % 4 ∧
    ∃ staged : List RegisterModification,
      (McaInitialize ia32 envColdBoot 0 cpuInfoMceMca none true []).2 = [] ++ staged ∧
      staged.countP (fun m => decide (IsBankCtlClear ia32 m)) = bankCount ia32 envColdBoot ∧
      staged.countP (fun m => decide (IsBankStatusClear ia32 m))
        = (if envColdBoot.PcdIsPowerOnReset then bankCount ia32 envColdBoot else 0) ∧
      staged.length = bankCount ia32 envColdBoot
        + (if envColdBoot.PcdIsPowerOnReset then bankCount ia32 envColdBoot else 0) ∧
      (staged.map fun m => m.Index).Nodup :=
  ⟨by decide, by decide,
    C3_mca_enable_write_counts ia32 envColdBoot 0 cpuInfoMceMca none [] (by decide) (by decide)⟩

/-- C4: the list staged by McaInitialize with State = TRUE on processor p is,
for i = 0..B-1 ascending, a 64-bit MSR write of MAX_UINT64 to
MSR_IA32_MC0_CTL + 4*i, followed, only on a power-on reset, by, for
i = 0..B-1 ascending, a 64-bit MSR write of 0 to MSR_IA32_MC0_STATUS + 4*i;
B is the Count member of the MCG_CAP value read in the call and the list
does not depend on CpuInfo or ConfigData.  The bank numbers are taken not to
wrap in 32 bits. -/
theorem C4_mca_enable_staged_list (A : ArchDefs) (env : Env) (p : Nat)
    (ci : REGISTER_CPU_FEATURE_INFORMATION) (cfg : ConfigDataPtr) (tbl : RegisterTable)
    (hfit : A.BankIdsFit (bankCount A env)) :
    McaInitialize A env p ci cfg true tbl =
      (RETURN_STATUS.RETURN_SUCCESS,
        tbl ++ (expectedCtlClears A p (bankCount A env)
          ++ (if env.PcdIsPowerOnReset then expectedStatusClears A p (bankCount A env)
              else []))) := by
  rw [McaInitialize_eq_expected A env p ci cfg true tbl hfit]
  rfl

/-- Witness of C4: IA-32 MSR numbers, two banks, not a power-on reset. -/
theorem C4_mca_enable_staged_list_witness :
    ia32.BankIdsFit (bankCount ia32 envWarmBoot) ∧
    McaInitialize ia32 envWarmBoot 3 cpuInfoMceMca none true [] =
      (RETURN_STATUS.RETURN_SUCCESS,
        [] ++ (expectedCtlClears ia32 3 (bankCount ia32 envWarmBoot)
          ++ (if envWarmBoot.PcdIsPowerOnReset
              then expectedStatusClears ia32 3 (bankCount ia32 envWarmBoot) else []))) :=
  ⟨by decide, C4_mca_enable_staged_list ia32 envWarmBoot 3 cpuInfoMceMca none [] (by decide)⟩

/-- C5 as stated fails: with State = FALSE on a power-on reset and two banks,
no status-register-clear write is staged, so the status loop is not gated by
the power-on-reset flag alone. -/
theorem C5_independent_gating_counterexample :
    ¬ (∀ (A : ArchDefs) (env : Env) (p : Nat) (ci : REGISTER_CPU_FEATURE_INFORMATION)
        (cfg : ConfigDataPtr) (State : Bool),
        0 < bankCount A env → A.BankIdsFit (bankCount A env) →
        ((∃ m ∈ (McaInitialize A env p ci cfg State []).2, IsBankCtlClear A m)
            ↔ State = true) ∧
        ((∃ m ∈ (McaInitialize A env p ci cfg State []).2, IsBankStatusClear A m)
            ↔ env.PcdIsPowerOnReset = true)) := by
  intro h
  have h1 := (h ia32 envColdBoot 0 cpuInfoMceMca none false (by decide) (by decide)).2
  have h2 : (McaInitialize ia32 envColdBoot 0 cpuInfoMceMca none false []).2 = [] := rfl
  rw [h2] at h1
  obtain ⟨m, hm, _⟩ := h1.mpr rfl
  exact List.not_mem_nil m hm

/-- C5 amended: for a bank count B > 0, control-register-clear writes are
staged exactly when State is TRUE, and status-register-clear writes are
staged exactly when State is TRUE and the boot is a power-on reset (the
status loop is nested inside the State test). -/
theorem C5_nested_gating (A : ArchDefs) (env : Env) (p : Nat)
    (ci : REGISTER_CPU_FEATURE_INFORMATION) (cfg : ConfigDataPtr) (State : Bool)
    (hB : 0 < bankCount A env) (hfit : A.BankIdsFit (bankCount A env)) :
    ((∃ m ∈ (McaInitialize A env p ci cfg State []).2, IsBankCtlClear A m)
        ↔ State = true) ∧
    ((∃ m ∈ (McaInitialize A env p ci cfg State []).2, IsBankStatusClear A m)
        ↔ (State = true ∧ env.PcdIsPowerOnReset = true)) := by
  rw [McaInitialize_eq_expected A env p ci cfg State [] hfit]
  have hc : ∃ m, m ∈ expectedCtlClears A p (bankCount A env) :=
    ⟨_, List.mem_map.mpr ⟨0, List.mem_range.mpr hB, rfl⟩⟩
  have hs : ∃ m, m ∈ expectedStatusClears A p (bankCount A env) :=
    ⟨_, List.mem_map.mpr ⟨0, List.mem_range.mpr hB, rfl⟩⟩
  cases State with
  | false => simp
  | true =>
    simp only [if_true, List.nil_append, true_and, iff_true]
    constructor
    · obtain ⟨m, hm⟩ := hc
      exact ⟨m, List.mem_append_left _ hm, isBankCtlClear_of_mem A p _ m hm⟩
    · cases hp : env.PcdIsPowerOnReset with
      | false =>
        simp only [Bool.false_eq_true, if_false, List.append_nil, iff_false]
        rintro ⟨m, hm, hsm⟩
        exact not_isBankStatusClear_of_mem_ctl A p _ m hm hsm
      | true =>
        simp only [if_true, iff_true]
        obtain ⟨m, hm⟩ := hs
        exact ⟨m, List.mem_append_right _ hm, isBankStatusClear_of_mem A p _ m hm⟩

/-- Witness of C5 amended: IA-32 MSR numbers, two banks, power-on reset,
State = FALSE. -/
theorem C5_nested_gating_witness :
    0 < bankCount ia32 envColdBoot ∧ ia32.BankIdsFit (bankCount ia32 envColdBoot) ∧
    (((∃ m ∈ (McaInitialize ia32 envColdBoot 0 cpuInfoMceMca none false []).2,
          IsBankCtlClear ia32 m) ↔ false = true) ∧
    ((∃ m ∈ (McaInitialize ia32 envColdBoot 0 cpuInfoMceMca none false []).2,
          IsBankStatusClear ia32 m)
        ↔ (false = true ∧ envColdBoot.PcdIsPowerOnReset = true))) :=
  ⟨by decide, by decide,
    C5_nested_gating ia32 envColdBoot 0 cpuInfoMceMca none false (by decide) (by decide)⟩

/-! ## LmceInitialize -/

/-- C6: with a non-null snapshot whose entry for processor p has Lock = 1,
LmceInitialize stages no register write and returns RETURN_SUCCESS, for
every State. -/
theorem C6_lmce_locked_stages_nothing (A : ArchDefs) (env : Env) (p : Nat)
    (ci : REGISTER_CPU_FEATURE_INFORMATION) (snapshot : Nat → Nat) (State : Bool)
    (tbl : RegisterTable) (hLock : A.FEATURE_CONTROL_Lock.get (snapshot p) = 1) :
    LmceInitialize A env p ci (some snapshot) State tbl
      = (Except.ok RETURN_STATUS.RETURN_SUCCESS, tbl) := by
  simp [LmceInitialize, ASSERT, hLock]

/-- Witness of C6: IA-32 layout, processor 2 locked, enabling requested. -/
theorem C6_lmce_locked_stages_nothing_witness :
    ia32.FEATURE_CONTROL_Lock.get (snapshotLocked 2) = 1 ∧
    LmceInitialize ia32 envColdBoot 2 cpuInfoMceMca (some snapshotLocked) true []
      = (Except.ok RETURN_STATUS.RETURN_SUCCESS, []) :=
  ⟨by decide,
    C6_lmce_locked_stages_nothing ia32 envColdBoot 2 cpuInfoMceMca snapshotLocked true []
      (by decide)⟩

/-- C7: with a non-null snapshot whose entry for processor p has Lock = 0,
LmceInitialize stages exactly one modification: a bit-field write on p to the
LmceOn member of MSR_IA32_FEATURE_CONTROL (class Msr), with value 1 if State
is TRUE and 0 if State is FALSE. -/
theorem C7_lmce_unlocked_stages_one (A : ArchDefs) (env : Env) (p : Nat)
    (ci : REGISTER_CPU_FEATURE_INFORMATION) (snapshot : Nat → Nat) (State : Bool)
    (tbl : RegisterTable) (hLock : A.FEATURE_CONTROL_Lock.get (snapshot p) = 0) :
    LmceInitialize A env p ci (some snapshot) State tbl
      = (Except.ok RETURN_STATUS.RETURN_SUCCESS,
          tbl ++ [⟨p, REGISTER_TYPE.Msr, A.MSR_IA32_FEATURE_CONTROL,
            WriteKind.field RegisterUnion.MSR_IA32_FEATURE_CONTROL_REGISTER BitsMember.LmceOn
              (if State then 1 else 0)⟩]) := by
  simp [LmceInitialize, ASSERT, hLock, CPU_REGISTER_TABLE_WRITE_FIELD]

/-- Witness of C7: IA-32 layout, processor 2 unlocked, disabling requested. -/
theorem C7_lmce_unlocked_stages_one_witness :
    ia32.FEATURE_CONTROL_Lock.get (snapshotUnlocked 2) = 0 ∧
    LmceInitialize ia32 envColdBoot 2 cpuInfoMceMca (some snapshotUnlocked) false []
      = (Except.ok RETURN_STATUS.RETURN_SUCCESS,
          [] ++ [⟨2, REGISTER_TYPE.Msr, ia32.MSR_IA32_FEATURE_CONTROL,
            WriteKind.field RegisterUnion.MSR_IA32_FEATURE_CONTROL_REGISTER BitsMember.LmceOn
              (if false then 1 else 0)⟩]) :=
  ⟨by decide,
    C7_lmce_unlocked_stages_one ia32 envColdBoot 2 cpuInfoMceMca snapshotUnlocked false []
      (by decide)⟩

/-- C8 as stated fails: with assertions compiled out, ConfigData = NULL does
not make LmceInitialize end with a contract violation; the call passes the
assertion and reads the snapshot through the NULL pointer. -/
theorem C8_lmce_null_snapshot_counterexample :
    ¬ (∀ (A : ArchDefs) (env : Env) (p : Nat) (ci : REGISTER_CPU_FEATURE_INFORMATION)
        (State : Bool) (tbl : RegisterTable),
        LmceInitialize A env p ci none State tbl
          = (Except.error Fault.ContractViolation, tbl)) := by
  intro h
  have h1 := h ia32NoAssert envColdBoot 0 cpuInfoMceMca true []
  have h2 : LmceInitialize ia32NoAssert envColdBoot 0 cpuInfoMceMca none true []
      = (Except.error Fault.NullDereference, []) := rfl
  rw [h2] at h1
  exact Fault.noConfusion (Except.error.inj (Prod.mk.inj h1).1)

/-- C8 amended: where a failed ASSERT stops the call, LmceInitialize invoked
with ConfigData = NULL ends at the assertion with a contract violation,
returns no status and stages no register write. -/
theorem C8_lmce_null_snapshot_stops_at_assert (A : ArchDefs) (env : Env) (p : Nat)
    (ci : REGISTER_CPU_FEATURE_INFORMATION) (State : Bool) (tbl : RegisterTable)
    (hAssert : A.AssertStopsCall = true) :
    LmceInitialize A env p ci none State tbl
      = (Except.error Fault.ContractViolation, tbl) := by
  rw [LmceInitialize_null, hAssert]
  rfl

/-- Witness of C8 amended: IA-32 layout with assertions enabled, processor 1,
enabling requested. -/
theorem C8_lmce_null_snapshot_stops_at_assert_witness :
    ia32.AssertStopsCall = true ∧
    LmceInitialize ia32 envColdBoot 1 cpuInfoMceMca none true []
      = (Except.error Fault.ContractViolation, []) :=
  ⟨rfl,
    C8_lmce_null_snapshot_stops_at_assert ia32 envColdBoot 1 cpuInfoMceMca true [] rfl⟩

/-! ## McgCtlInitialize and MceInitialize -/

/-- C9: McgCtlInitialize stages exactly one modification: a whole-register
64-bit MSR write on p to MSR_IA32_MCG_CTL, of MAX_UINT64 when State is TRUE
and 0 when State is FALSE; this holds for every MCG_CAP value, so the number
of staged writes (one) does not depend on the bank count. -/
theorem C9_mcgctl_stages_one (A : ArchDefs) (env : Env) (p : Nat)
    (ci : REGISTER_CPU_FEATURE_INFORMATION) (cfg : ConfigDataPtr) (State : Bool)
    (tbl : RegisterTable) :
    McgCtlInitialize A env p ci cfg State tbl
      = (RETURN_STATUS.RETURN_SUCCESS,
          tbl ++ [⟨p, REGISTER_TYPE.Msr, A.MSR_IA32_MCG_CTL,
            WriteKind.whole (if State then MAX_UINT64 else 0)⟩]) ∧
    ∀ env2 : Env, (McgCtlInitialize A env2 p ci cfg State tbl).2.length = tbl.length + 1 := by
  simp [McgCtlInitialize, CPU_REGISTER_TABLE_WRITE64]

/-- C10: on every processor p and for every State, MceInitialize stages
exactly one modification, a bit-field write on p to the MCE member of CR4
(class ControlRegister, index 4) with value 1 if State is TRUE and 0 if
State is FALSE, and returns RETURN_SUCCESS. -/
theorem C10_mce_stages_cr4_bit (A : ArchDefs) (env : Env) (p : Nat)
    (ci : REGISTER_CPU_FEATURE_INFORMATION) (cfg : ConfigDataPtr) (State : Bool)
    (tbl : RegisterTable) :
    MceInitialize A env p ci cfg State tbl
      = (RETURN_STATUS.RETURN_SUCCESS,
          tbl ++ [⟨p, REGISTER_TYPE.ControlRegister, 4,
            WriteKind.field RegisterUnion.IA32_CR4 BitsMember.MCE
              (if State then 1 else 0)⟩]) := by
  simp [MceInitialize, CPU_REGISTER_TABLE_WRITE_FIELD]

/-! ## Return status, tagging, disabling -/

/-- C11: each of the four initializers returns RETURN_SUCCESS for every
processor number, State, MCG_CAP value, power-on-reset flag and present
snapshot, also when it stages no register write. -/
theorem C11_initializers_return_success (A : ArchDefs) (env : Env) (p : Nat)
    (ci : REGISTER_CPU_FEATURE_INFORMATION) (cfg : ConfigDataPtr) (snapshot : Nat → Nat)
    (State : Bool) (tbl : RegisterTable) :
    (MceInitialize A env p ci cfg State tbl).1 = RETURN_STATUS.RETURN_SUCCESS ∧
    (McaInitialize A env p ci cfg State tbl).1 = RETURN_STATUS.RETURN_SUCCESS ∧
    (McgCtlInitialize A env p ci cfg State tbl).1 = RETURN_STATUS.RETURN_SUCCESS ∧
    (LmceInitialize A env p ci (some snapshot) State tbl).1
      = Except.ok RETURN_STATUS.RETURN_SUCCESS := by
  refine ⟨rfl, ?_, rfl, ?_⟩
  · rw [McaInitialize_eq]
  · by_cases hLock : A.FEATURE_CONTROL_Lock.get (snapshot p) = 0 <;>
      simp [LmceInitialize, ASSERT, hLock]

/-- C17: every modification staged by MceInitialize, McaInitialize,
McgCtlInitialize or LmceInitialize called with processor number p is tagged
with p, for every State, MCG_CAP value, power-on-reset flag and snapshot
(present or NULL); the entries already in the table are left as they are. -/
theorem C17_staged_entries_tagged_with_processor (A : ArchDefs) (env : Env) (p : Nat)
    (ci : REGISTER_CPU_FEATURE_INFORMATION) (cfg : ConfigDataPtr)
    (State : Bool) (tbl : RegisterTable) :
    (∃ staged, (MceInitialize A env p ci cfg State tbl).2 = tbl ++ staged ∧
      ∀ m ∈ staged, m.ProcessorNumber = p) ∧
    (∃ staged, (McaInitialize A env p ci cfg State tbl).2 = tbl ++ staged ∧
      ∀ m ∈ staged, m.ProcessorNumber = p) ∧
    (∃ staged, (McgCtlInitialize A env p ci cfg State tbl).2 = tbl ++ staged ∧
      ∀ m ∈ staged, m.ProcessorNumber = p) ∧
    (∃ staged, (LmceInitialize A env p ci cfg State tbl).2 = tbl ++ staged ∧
      ∀ m ∈ staged, m.ProcessorNumber = p) := by
  refine ⟨⟨_, rfl, ?_⟩, ?_, ⟨_, rfl, ?_⟩, ?_⟩
  · intro m hm
    rw [List.mem_singleton.mp hm]
  · rw [McaInitialize_eq]
    refine ⟨_, rfl, ?_⟩
    intro m hm
    cases State with
    | false => simp at hm
    | true =>
      simp only [if_true, List.mem_append, List.mem_map] at hm
      rcases hm with ⟨i, _, rfl⟩ | hm
      · rfl
      · cases hp : env.PcdIsPowerOnReset with
        | false => simp [hp] at hm
        | true =>
          simp only [hp, if_true, List.mem_map] at hm
          obtain ⟨i, _, rfl⟩ := hm
          rfl
  · intro m hm
    rw [List.mem_singleton.mp hm]
  · cases cfg with
    | none => exact ⟨[], by simp [LmceInitialize_null], by simp⟩
    | some snapshot =>
      by_cases hLock : A.FEATURE_CONTROL_Lock.get (snapshot p) = 0
      · refine ⟨[⟨p, REGISTER_TYPE.Msr, A.MSR_IA32_FEATURE_CONTROL,
            WriteKind.field RegisterUnion.MSR_IA32_FEATURE_CONTROL_REGISTER
              BitsMember.LmceOn (if State then 1 else 0)⟩], ?_, ?_⟩
        · simp [LmceInitialize, ASSERT, hLock, CPU_REGISTER_TABLE_WRITE_FIELD]
        · intro m hm
          rw [List.mem_singleton.mp hm]
      · exact ⟨[], by simp [LmceInitialize, ASSERT, hLock], by simp⟩

/-- C18: McaInitialize with State = FALSE stages no register write at all,
for every processor number, MCG_CAP value and power-on-reset flag: neither a
write to a bank control register nor a status-register clear. -/
theorem C18_mca_disable_stages_nothing (A : ArchDefs) (env : Env) (p : Nat)
    (ci : REGISTER_CPU_FEATURE_INFORMATION) (cfg : ConfigDataPtr) (tbl : RegisterTable) :
    McaInitialize A env p ci cfg false tbl = (RETURN_STATUS.RETURN_SUCCESS, tbl) := by
  simp [McaInitialize]

/-! ## LmceSupport and LmceInitialize: what they look at -/

/-- C15: the diagnostic in LmceSupport does not affect its result: for any
two processor numbers p and q, the same CpuInfo and the same MCG_CAP value
the returned boolean is the same, namely McaSupport and (MCG_LMCE_P != 0);
the diagnostic is emitted only on processor 0 (and only when MCA is
supported) and reports the boolean that is returned. -/
theorem C15_lmce_diagnostic_does_not_affect_result (A : ArchDefs) (env : Env) (p q : Nat)
    (ci : REGISTER_CPU_FEATURE_INFORMATION) (cfg : ConfigDataPtr)
    (log logq : List DebugMessage) :
    (LmceSupport A env p ci cfg log).1 = (LmceSupport A env q ci cfg logq).1 ∧
    (LmceSupport A env p ci cfg log).1
      = (McaSupport A env p ci cfg && (A.MCG_CAP_MCG_LMCE_P.get (readMcgCap A env) != 0)) ∧
    (LmceSupport A env p ci cfg log).2
      = (if McaSupport A env p ci cfg = true ∧ p = 0 then
          log ++ [DebugMessage.LmceEnable (LmceSupport A env p ci cfg log).1]
        else log) := by
  have hpq : McaSupport A env p ci cfg = McaSupport A env q ci cfg := rfl
  refine ⟨?_, ?_, ?_⟩
  · cases h : McaSupport A env p ci cfg <;> simp [LmceSupport, ← hpq, h]
  · cases h : McaSupport A env p ci cfg <;> simp [LmceSupport, h, readMcgCap]
  · cases h : McaSupport A env p ci cfg
    · simp [LmceSupport, h]
    · by_cases hp : p = 0
      · subst hp
        simp [LmceSupport, h, DEBUG]
      · simp [LmceSupport, h, hp]

/-- C16: LmceInitialize looks only at the Lock bit of the snapshot entry of
the processor it runs on: two present snapshots that agree on that bit, with
any two CpuInfo values (and any surroundings), give the same staged table and
the same status. -/
theorem C16_lmce_reads_only_own_lock_bit (A : ArchDefs) (env env2 : Env) (p : Nat)
    (ci ci2 : REGISTER_CPU_FEATURE_INFORMATION) (snapshot snapshot2 : Nat → Nat)
    (State : Bool) (tbl : RegisterTable)
    (hLock : A.FEATURE_CONTROL_Lock.get (snapshot p)
      = A.FEATURE_CONTROL_Lock.get (snapshot2 p)) :
    LmceInitialize A env p ci (some snapshot) State tbl
      = LmceInitialize A env2 p ci2 (some snapshot2) State tbl := by
  simp [LmceInitialize, ASSERT, hLock]

/-- Witness of C16: under the IA-32 layout, processor 2 is unlocked in both
snapshots, which differ in the LmceOn bit of entry 2 and in every other
entry; the CpuInfo values and the power-on-reset flag differ too. -/
theorem C16_lmce_reads_only_own_lock_bit_witness :
    ia32.FEATURE_CONTROL_Lock.get (snapshotMixed 2)
      = ia32.FEATURE_CONTROL_Lock.get (snapshotUnlocked 2) ∧
    LmceInitialize ia32 envColdBoot 2 cpuInfoMceMca (some snapshotMixed) true []
      = LmceInitialize ia32 envWarmBoot 2 cpuInfoNoMce (some snapshotUnlocked) true [] :=
  ⟨by decide,
    C16_lmce_reads_only_own_lock_bit ia32 envColdBoot envWarmBoot 2 cpuInfoMceMca
      cpuInfoNoMce snapshotMixed snapshotUnlocked true [] (by decide)⟩

/-! ## The per-processor pass -/

/-- C13: in a pass that calls, in the order MCE, MCA, MCG_CTL, LMCE, each
initializer exactly when its support predicate holds, with the MCE, MCA,
MCG_CTL_P and MCG_LMCE_P bits set, bank count B, State = TRUE and the
processor unlocked, the staged list is: one CR4.MCE bit write of 1, the B
bank control writes of MAX_UINT64, the B bank status writes of 0 on a
power-on reset and none otherwise, one MCG_CTL write of MAX_UINT64 and one
LmceOn bit write of 1.  The bank numbers are taken not to wrap in 32 bits. -/
theorem C13_pass_all_supported (A : ArchDefs) (env : Env) (p : Nat)
    (ci : REGISTER_CPU_FEATURE_INFORMATION) (snapshot : Nat → Nat) (tbl : RegisterTable)
    (hMCE : A.EDX_MCE.get ci.CpuIdVersionInfoEdx = 1)
    (hMCA : A.EDX_MCA.get ci.CpuIdVersionInfoEdx = 1)
    (hCTL : A.MCG_CAP_MCG_CTL_P.get (readMcgCap A env) = 1)
    (hLMCE : A.MCG_CAP_MCG_LMCE_P.get (readMcgCap A env) = 1)
    (hLock : A.FEATURE_CONTROL_Lock.get (snapshot p) = 0)
    (hfit : A.BankIdsFit (bankCount A env)) :
    featurePass A env p ci (some snapshot) true tbl =
      (Except.ok (),
        tbl ++ [⟨p, REGISTER_TYPE.ControlRegister, 4,
            WriteKind.field RegisterUnion.IA32_CR4 BitsMember.MCE 1⟩]
          ++ expectedCtlClears A p (bankCount A env)
          ++ (if env.PcdIsPowerOnReset then expectedStatusClears A p (bankCount A env)
              else [])
          ++ [⟨p, REGISTER_TYPE.Msr, A.MSR_IA32_MCG_CTL, WriteKind.whole MAX_UINT64⟩]
          ++ [⟨p, REGISTER_TYPE.Msr, A.MSR_IA32_FEATURE_CONTROL,
            WriteKind.field RegisterUnion.MSR_IA32_FEATURE_CONTROL_REGISTER
              BitsMember.LmceOn 1⟩]) ∧
    (expectedCtlClears A p (bankCount A env)).length = bankCount A env ∧
    (expectedStatusClears A p (bankCount A env)).length = bankCount A env :=
  ⟨featurePass_all_supported A env p ci snapshot tbl hMCE hMCA hCTL hLMCE hLock hfit,
    expectedCtlClears_length A p _, expectedStatusClears_length A p _⟩

/-- Witness of C13: scenario A (IA-32 layout, two banks, power-on reset,
processor 0 unlocked). -/
theorem C13_pass_all_supported_witness :
    ia32.EDX_MCE.get cpuInfoMceMca.CpuIdVersionInfoEdx = 1 ∧
    ia32.EDX_MCA.get cpuInfoMceMca.CpuIdVersionInfoEdx = 1 ∧
    ia32.MCG_CAP_MCG_CTL_P.get (readMcgCap ia32 envColdBoot) = 1 ∧
    ia32.MCG_CAP_MCG_LMCE_P.get (readMcgCap ia32 envColdBoot) = 1 ∧
    ia32.FEATURE_CONTROL_Lock.get (snapshotUnlocked 0) = 0 ∧
    ia32.BankIdsFit (bankCount ia32 envColdBoot) ∧
    (featurePass ia32 envColdBoot 0 cpuInfoMceMca (some snapshotUnlocked) true [] =
      (Except.ok (),
        [] ++ [⟨0, REGISTER_TYPE.ControlRegister, 4,
            WriteKind.field RegisterUnion.IA32_CR4 BitsMember.MCE 1⟩]
          ++ expectedCtlClears ia32 0 (bankCount ia32 envColdBoot)
          ++ (if envColdBoot.PcdIsPowerOnReset
              then expectedStatusClears ia32 0 (bankCount ia32 envColdBoot) else [])
          ++ [⟨0, REGISTER_TYPE.Msr, ia32.MSR_IA32_MCG_CTL, WriteKind.whole MAX_UINT64⟩]
          ++ [⟨0, REGISTER_TYPE.Msr, ia32.MSR_IA32_FEATURE_CONTROL,
            WriteKind.field RegisterUnion.MSR_IA32_FEATURE_CONTROL_REGISTER
              BitsMember.LmceOn 1⟩]) ∧
    (expectedCtlClears ia32 0 (bankCount ia32 envColdBoot)).length
      = bankCount ia32 envColdBoot ∧
    (expectedStatusClears ia32 0 (bankCount ia32 envColdBoot)).length
      = bankCount ia32 envColdBoot) :=
  ⟨by decide, by decide, by decide, by decide, by decide, by decide,
    C13_pass_all_supported ia32 envColdBoot 0 cpuInfoMceMca snapshotUnlocked []
      (by decide) (by decide) (by decide) (by decide) (by decide) (by decide)⟩

/-- C14: in a pass that calls each initializer exactly when its support
predicate holds, a CPUID word with the MCE bit clear makes all four support
predicates FALSE and the pass stages no register write, for every MCA bit,
MCG_CAP value, State, power-on-reset flag and snapshot. -/
theorem C14_pass_without_mce_stages_nothing (A : ArchDefs) (env : Env) (p : Nat)
    (ci : REGISTER_CPU_FEATURE_INFORMATION) (cfg : ConfigDataPtr) (State : Bool)
    (tbl : RegisterTable) (log : List DebugMessage)
    (hMCE : A.EDX_MCE.get ci.CpuIdVersionInfoEdx = 0) :
    MceSupport A env p ci cfg = false ∧ McaSupport A env p ci cfg = false ∧
    McgCtlSupport A env p ci cfg = false ∧ (LmceSupport A env p ci cfg log).1 = false ∧
    featurePass A env p ci cfg State tbl = (Except.ok (), tbl) := by
  refine ⟨?_, ?_, ?_, ?_, featurePass_without_mce A env p ci cfg State tbl hMCE⟩ <;>
    simp [McaSupport, McgCtlSupport, LmceSupport, MceSupport, hMCE]

/-- Witness of C14: scenario C (IA-32 layout, MCA set but MCE clear, every
capability bit of MCG_CAP set, enabling requested on a power-on reset). -/
theorem C14_pass_without_mce_stages_nothing_witness :
    ia32.EDX_MCE.get cpuInfoNoMce.CpuIdVersionInfoEdx = 0 ∧
    (MceSupport ia32 envColdBoot 0 cpuInfoNoMce (some snapshotUnlocked) = false ∧
    McaSupport ia32 envColdBoot 0 cpuInfoNoMce (some snapshotUnlocked) = false ∧
    McgCtlSupport ia32 envColdBoot 0 cpuInfoNoMce (some snapshotUnlocked) = false ∧
    (LmceSupport ia32 envColdBoot 0 cpuInfoNoMce (some snapshotUnlocked) []).1 = false ∧
    featurePass ia32 envColdBoot 0 cpuInfoNoMce (some snapshotUnlocked) true []
      = (Except.ok (), [])) :=
  ⟨by decide,
    C14_pass_without_mce_stages_nothing ia32 envColdBoot 0 cpuInfoNoMce
      (some snapshotUnlocked) true [] [] (by decide)⟩

/-! ## Idempotence under commit -/

/-- C12: for each of the four initializers and every fixed input, committing
the table staged by two identical calls in a row (whole-register write
replaces the value, bit-field write replaces only that field, later entries
win) leaves every initial register file in the same final state as
committing the table staged by one call. -/
theorem C12_initializers_idempotent_under_commit (A : ArchDefs) (env : Env) (p : Nat)
    (ci : REGISTER_CPU_FEATURE_INFORMATION) (cfg : ConfigDataPtr) (State : Bool)
    (s : RegisterFile) :
    applyTable A
        (MceInitialize A env p ci cfg State (MceInitialize A env p ci cfg State []).2).2 s
      = applyTable A (MceInitialize A env p ci cfg State []).2 s ∧
    applyTable A
        (McaInitialize A env p ci cfg State (McaInitialize A env p ci cfg State []).2).2 s
      = applyTable A (McaInitialize A env p ci cfg State []).2 s ∧
    applyTable A
        (McgCtlInitialize A env p ci cfg State
          (McgCtlInitialize A env p ci cfg State []).2).2 s
      = applyTable A (McgCtlInitialize A env p ci cfg State []).2 s ∧
    applyTable A
        (LmceInitialize A env p ci cfg State (LmceInitialize A env p ci cfg State []).2).2 s
      = applyTable A (LmceInitialize A env p ci cfg State []).2 s := by
  refine ⟨?_, ?_, ?_, ?_⟩
  · simp only [MceInitialize, CPU_REGISTER_TABLE_WRITE_FIELD, List.nil_append, applyTable,
      List.foldl_append, List.foldl_cons, List.foldl_nil]
    exact applyModification_twice A _ s
  · simp only [McaInitialize_eq, List.nil_append]
    apply applyTable_whole_twice
    intro m hm
    cases State with
    | false => simp at hm
    | true =>
      simp only [if_true, List.mem_append, List.mem_map] at hm
      rcases hm with ⟨i, _, rfl⟩ | hm
      · exact ⟨_, rfl⟩
      · cases hp : env.PcdIsPowerOnReset with
        | false => simp [hp] at hm
        | true =>
          simp only [hp, if_true, List.mem_map] at hm
          obtain ⟨i, _, rfl⟩ := hm
          exact ⟨_, rfl⟩
  · simp only [McgCtlInitialize, CPU_REGISTER_TABLE_WRITE64, List.nil_append, applyTable,
      List.foldl_append, List.foldl_cons, List.foldl_nil]
    exact applyModification_twice A _ s
  · cases cfg with
    | none => simp only [LmceInitialize_null]
    | some snapshot =>
      by_cases hLock : A.FEATURE_CONTROL_Lock.get (snapshot p) = 0
      · simp only [LmceInitialize, ASSERT, Option.isSome_some, if_true, hLock,
          CPU_REGISTER_TABLE_WRITE_FIELD, List.nil_append, applyTable, List.foldl_append,
          List.foldl_cons, List.foldl_nil]
        exact applyModification_twice A _ s
      · simp [LmceInitialize, ASSERT, hLock]

/-! ## Bank count and MSR numbers -/

/-- C19: with the Count member 8 bits wide, the bank count McaInitialize uses
is at most 255; each loop stages exactly Count entries; with bases that
leave room for 255 banks below 2^32 the 32-bit sums MSR_IA32_MC0_CTL +
BankIndex*4 and MSR_IA32_MC0_STATUS + BankIndex*4 do not wrap; every staged
control MSR number is congruent to MSR_IA32_MC0_CTL and every staged status
MSR number to MSR_IA32_MC0_STATUS modulo 4, so, the bases being incongruent
modulo 4, no control number equals a status number and no number is staged
twice in one call. -/
theorem C19_bank_count_and_msr_numbers (A : ArchDefs) (env : Env) (p : Nat)
    (ci : REGISTER_CPU_FEATURE_INFORMATION) (cfg : ConfigDataPtr) (tbl : RegisterTable)
    (hW : A.MCG_CAP_Count.width = 8)
    (hctl : A.MSR_IA32_MC0_CTL + 4 * 255 < 2 ^ 32)
    (hsts : A.MSR_IA32_MC0_STATUS + 4 * 255 < 2 ^ 32)
    (hsep : A.MSR_IA32_MC0_CTL % 4 ≠ A.MSR_IA32_MC0_STATUS % 4) :
    bankCount A env ≤ 255 ∧
    (∀ i, i < bankCount A env →
      (A.MSR_IA32_MC0_CTL + i * 4) % 2 ^ 32 = A.MSR_IA32_MC0_CTL + i * 4 ∧
      (A.MSR_IA32_MC0_STATUS + i * 4) % 2 ^ 32 = A.MSR_IA32_MC0_STATUS + i * 4) ∧
    (McaInitialize A env p ci cfg true tbl).2
      = tbl ++ (expectedCtlClears A p (bankCount A env)
          ++ (if env.PcdIsPowerOnReset then expectedStatusClears A p (bankCount A env)
              else [])) ∧
    (expectedCtlClears A p (bankCount A env)).length = bankCount A env ∧
    (expectedStatusClears A p (bankCount A env)).length = bankCount A env ∧
    (∀ m ∈ expectedCtlClears A p (bankCount A env),
      m.Index % 4 = A.MSR_IA32_MC0_CTL % 4) ∧
    (∀ m ∈ expectedStatusClears A p (bankCount A env),
      m.Index % 4 = A.MSR_IA32_MC0_STATUS % 4) ∧
    (∀ c ∈ expectedCtlClears A p (bankCount A env),
      ∀ t ∈ expectedStatusClears A p (bankCount A env), c.Index ≠ t.Index) ∧
    ((expectedCtlClears A p (bankCount A env)
        ++ expectedStatusClears A p (bankCount A env)).map fun m => m.Index).Nodup := by
  have hB : bankCount A env ≤ 255 := by
    have h : bankCount A env < 2 ^ A.MCG_CAP_Count.width :=
      Nat.mod_lt _ (Nat.two_pow_pos _)
    rw [hW] at h
    omega
  have hfit : A.BankIdsFit (bankCount A env) := by
    constructor <;> omega
  refine ⟨hB, ?_, ?_, expectedCtlClears_length A p _, expectedStatusClears_length A p _,
    ?_, ?_, ?_, nodup_bank_indices A p _ hsep⟩
  · intro i hi
    constructor <;> exact Nat.mod_eq_of_lt (by omega)
  · rw [McaInitialize_eq_expected A env p ci cfg true tbl hfit]
    rfl
  · intro m hm
    obtain ⟨i, _, rfl⟩ := List.mem_map.mp hm
    show (A.MSR_IA32_MC0_CTL + 4 * i) % 4 = A.MSR_IA32_MC0_CTL % 4
    omega
  · intro m hm
    obtain ⟨i, _, rfl⟩ := List.mem_map.mp hm
    show (A.MSR_IA32_MC0_STATUS + 4 * i) % 4 = A.MSR_IA32_MC0_STATUS % 4
    omega
  · intro c hc t ht
    obtain ⟨i, _, rfl⟩ := List.mem_map.mp hc
    obtain ⟨j, _, rfl⟩ := List.mem_map.mp ht
    show A.MSR_IA32_MC0_CTL + 4 * i ≠ A.MSR_IA32_MC0_STATUS + 4 * j
    omega

/-- Witness of C19: IA-32 layout and MSR numbers, two banks, power-on reset. -/
theorem C19_bank_count_and_msr_numbers_witness :
    ia32.MCG_CAP_Count.width = 8 ∧
    ia32.MSR_IA32_MC0_CTL + 4 * 255 < 2 ^ 32 ∧
    ia32.MSR_IA32_MC0_STATUS + 4 * 255 < 2 ^ 32 ∧
    ia32.MSR_IA32_MC0_CTL % 4 ≠ ia32.MSR_IA32_MC0_STATUS % 4 ∧
    (bankCount ia32 envColdBoot ≤ 255 ∧
    (∀ i, i < bankCount ia32 envColdBoot →
      (ia32.MSR_IA32_MC0_CTL + i * 4) % 2 ^ 32 = ia32.MSR_IA32_MC0_CTL + i * 4 ∧
      (ia32.MSR_IA32_MC0_STATUS + i * 4) % 2 ^ 32 = ia32.MSR_IA32_MC0_STATUS + i * 4) ∧
    (McaInitialize ia32 envColdBoot 0 cpuInfoMceMca none true []).2
      = [] ++ (expectedCtlClears ia32 0 (bankCount ia32 envColdBoot)
          ++ (if envColdBoot.PcdIsPowerOnReset
              then expectedStatusClears ia32 0 (bankCount ia32 envColdBoot) else [])) ∧
    (expectedCtlClears ia32 0 (bankCount ia32 envColdBoot)).length
      = bankCount ia32 envColdBoot ∧
    (expectedStatusClears ia32 0 (bankCount ia32 envColdBoot)).length
      = bankCount ia32 envColdBoot ∧
    (∀ m ∈ expectedCtlClears ia32 0 (bankCount ia32 envColdBoot),
      m.Index % 4 = ia32.MSR_IA32_MC0_CTL % 4) ∧
    (∀ m ∈ expectedStatusClears ia32 0 (bankCount ia32 envColdBoot),
      m.Index % 4 = ia32.MSR_IA32_MC0_STATUS % 4) ∧
    (∀ c ∈ expectedCtlClears ia32 0 (bankCount ia32 envColdBoot),
      ∀ t ∈ expectedStatusClears ia32 0 (bankCount ia32 envColdBoot), c.Index ≠ t.Index) ∧
    ((expectedCtlClears ia32 0 (bankCount ia32 envColdBoot)
        ++ expectedStatusClears ia32 0 (bankCount ia32 envColdBoot)).map
          fun m => m.Index).Nodup) :=
  ⟨rfl, by decide, by decide, by decide,
    C19_bank_count_and_msr_numbers ia32 envColdBoot 0 cpuInfoMceMca none [] rfl
      (by decide) (by decide) (by decide)⟩

/-! ## The end-to-end scenarios, entry by entry -/

/-- Scenario A (two banks, power-on reset, everything supported, enabling,
unlocked): 1 CR4.MCE write, 2 control clears, 2 status clears, 1 MCG_CTL
write, 1 LmceOn write. -/
theorem scenarioA_staged_list :
    featurePass ia32 envColdBoot 0 cpuInfoMceMca (some snapshotUnlocked) true [] =
      (Except.ok (),
        [⟨0, REGISTER_TYPE.ControlRegister, 4,
            WriteKind.field RegisterUnion.IA32_CR4 BitsMember.MCE 1⟩,
          ⟨0, REGISTER_TYPE.Msr, 0x400, WriteKind.whole MAX_UINT64⟩,
          ⟨0, REGISTER_TYPE.Msr, 0x404, WriteKind.whole MAX_UINT64⟩,
          ⟨0, REGISTER_TYPE.Msr, 0x401, WriteKind.whole 0⟩,
          ⟨0, REGISTER_TYPE.Msr, 0x405, WriteKind.whole 0⟩,
          ⟨0, REGISTER_TYPE.Msr, 0x17B, WriteKind.whole MAX_UINT64⟩,
          ⟨0, REGISTER_TYPE.Msr, 0x3A,
            WriteKind.field RegisterUnion.MSR_IA32_FEATURE_CONTROL_REGISTER
              BitsMember.LmceOn 1⟩]) := by
  rw [featurePass_all_supported ia32 envColdBoot 0 cpuInfoMceMca snapshotUnlocked []
    (by decide) (by decide) (by decide) (by decide) (by decide) (by decide)]
  rfl

/-- Scenario B (as A, but not a power-on reset): the same without the status
clears. -/
theorem scenarioB_staged_list :
    featurePass ia32 envWarmBoot 0 cpuInfoMceMca (some snapshotUnlocked) true [] =
      (Except.ok (),
        [⟨0, REGISTER_TYPE.ControlRegister, 4,
            WriteKind.field RegisterUnion.IA32_CR4 BitsMember.MCE 1⟩,
          ⟨0, REGISTER_TYPE.Msr, 0x400, WriteKind.whole MAX_UINT64⟩,
          ⟨0, REGISTER_TYPE.Msr, 0x404, WriteKind.whole MAX_UINT64⟩,
          ⟨0, REGISTER_TYPE.Msr, 0x17B, WriteKind.whole MAX_UINT64⟩,
          ⟨0, REGISTER_TYPE.Msr, 0x3A,
            WriteKind.field RegisterUnion.MSR_IA32_FEATURE_CONTROL_REGISTER
              BitsMember.LmceOn 1⟩]) := by
  rw [featurePass_all_supported ia32 envWarmBoot 0 cpuInfoMceMca snapshotUnlocked []
    (by decide) (by decide) (by decide) (by decide) (by decide) (by decide)]
  rfl

end MachineCheck
